import Mathlib

/-!
Verification of the AtovioScanner barcode allocation engine (src/db.py)
against its natural-language specification.

Strings are modelled as lists of characters (`Str`); Python string
operations (`strip`, `upper`, `lower`, regex character classes) are
modelled on the ASCII range, which covers every character the engine's
grammar, SKU normalization and tokens produce.  A comma-separated
`product_id` cell is modelled as the list of its comma-separated segments
(`splitComma` / `joinComma` form the exact bijection used by the source's
`split(",")` / `",".join`).  The two content hashes of the source (sha1 of
the dedup-key parts, md5 of the row id) are modelled by their pre-image
strings: both are used by the source only as deterministic functions of
those strings, never inverted.
-/

namespace Atovio

/-- Strings of the Python source, modelled as lists of characters. -/
abbrev Str := List Char

/-- Python whitespace (the ASCII part of `str.strip` / regex class `\s`):
space, tab, newline, carriage return, vertical tab, form feed. -/
def wsB (c : Char) : Bool :=
  c.toNat = 32 || c.toNat = 9 || c.toNat = 10 || c.toNat = 13 || c.toNat = 11 || c.toNat = 12

/-- Regex class `[A-Z]`. -/
def upAl (c : Char) : Bool := 65 ≤ c.toNat && c.toNat ≤ 90

/-- Regex class `[a-z]`. -/
def loAl (c : Char) : Bool := 97 ≤ c.toNat && c.toNat ≤ 122

/-- Regex class `[A-Za-z]`. -/
def alB (c : Char) : Bool := upAl c || loAl c

/-- Regex class `[0-9]` (= `\d` for ASCII). -/
def digB (c : Char) : Bool := 48 ≤ c.toNat && c.toNat ≤ 57

/-- Regex class `[A-Za-z0-9]`. -/
def alnumB (c : Char) : Bool := alB c || digB c

/-- Python `str.upper`, per character (ASCII). -/
def upChar (c : Char) : Char := if loAl c then Char.ofNat (c.toNat - 32) else c

/-- Python `str.lower`, per character (ASCII). -/
def loChar (c : Char) : Char := if upAl c then Char.ofNat (c.toNat + 32) else c

/-- Python `str.upper` on a string. -/
def upper (s : Str) : Str := s.map upChar

/-- Python `str.lower` on a string. -/
def lower (s : Str) : Str := s.map loChar

/-- Python `str.strip`: drop whitespace from both ends. -/
def trim (s : Str) : Str := ((s.dropWhile wsB).reverse.dropWhile wsB).reverse

-- ---------------------------------------------------------------
-- SKU normalization (src/db.py `_norm`, `_sku_norm`, `_normalize_sku_for_db`)
-- ---------------------------------------------------------------

/-- Embeds `_norm`: `(s or "").strip()`. -/
def _norm (s : Str) : Str := trim s

/-- Embeds `_sku_norm`: `re.sub(r"[^A-Za-z0-9]", "", (s or "").upper())`. -/
def _sku_norm (s : Str) : Str := (upper s).filter alnumB

/-- Python `str.zfill k`: left-pad with zeros up to length `k`. -/
def zfill (k : Nat) (s : Str) : Str :=
  if k ≤ s.length then s else List.replicate (k - s.length) '0' ++ s

/-- Embeds the tail computation of `_normalize_sku_for_db`:
`digits[-4:] if len(digits) >= 4 else digits.zfill(4)`. -/
def pad4tail (ds : Str) : Str :=
  if 4 ≤ ds.length then ds.drop (ds.length - 4) else zfill 4 ds

/-- Embeds `_normalize_sku_for_db`.  The regex `^([A-Z]+)(\d+)$` applied to
the stripped, uppercased string matches exactly when the string is a
nonempty block of `A-Z` letters followed by a nonempty block of digits; its
two groups are then the maximal `A-Z` block and the rest. -/
def _normalize_sku_for_db (raw : Str) : Str :=
  if (_sku_norm raw).takeWhile upAl ≠ [] ∧ (_sku_norm raw).dropWhile upAl ≠ [] ∧
      ((_sku_norm raw).dropWhile upAl).all digB then
    (_sku_norm raw).takeWhile upAl ++ pad4tail ((_sku_norm raw).dropWhile upAl)
  else _sku_norm raw

/-- Maximal digit suffix of a string (used by claim C6's reading). -/
def dtailOf (t : Str) : Str := (t.reverse.takeWhile digB).reverse

/-- What precedes the maximal digit suffix (used by claim C6's reading). -/
def preOf (t : Str) : Str := t.take (t.length - (dtailOf t).length)

/-- Claim C6's own description of normalization, stated independently of the
implementation: strip the non-alphanumerics, uppercase, then split off the
maximal digit suffix; when the remainder is a nonempty letter block the digit
tail is zero-padded to 4 digits, truncated to its last 4 digits when longer;
otherwise the stripped-uppercased string is returned unchanged. -/
def normalizeSpecC6 (raw : Str) : Str :=
  if preOf (upper (raw.filter alnumB)) ≠ [] ∧ dtailOf (upper (raw.filter alnumB)) ≠ [] ∧
      (preOf (upper (raw.filter alnumB))).all alB then
    preOf (upper (raw.filter alnumB)) ++
      (if 4 < (dtailOf (upper (raw.filter alnumB))).length then
        (dtailOf (upper (raw.filter alnumB))).drop ((dtailOf (upper (raw.filter alnumB))).length - 4)
      else zfill 4 (dtailOf (upper (raw.filter alnumB))))
  else upper (raw.filter alnumB)

-- ---------------------------------------------------------------
-- SKU registry (src/db.py master data)
-- ---------------------------------------------------------------

/-- One `sku_master.csv` entry: `{name, display_name, type}`. -/
structure Info where
  name : Str
  display_name : Str
  type : Str
deriving DecidableEq, Repr

/-- The loaded `sku_master.csv` dictionary (key: `_sku_norm` of the sku). -/
abbrev Master := List (Str × Info)

/-- Python `dict.get` on the master dictionary. -/
def lookupM (m : Master) (k : Str) : Option Info :=
  match m.find? (fun p => p.1 == k) with
  | some p => some p.2
  | none => none

/-- Python `dict.__setitem__` (later insertions override earlier ones). -/
def insertM (m : Master) (k : Str) (v : Info) : Master :=
  (k, v) :: m.filter (fun p => !(p.1 == k))

def CompulsoryT : Str := "Compulsory".data

def LooseT : Str := "Loose".data

def NoScanT : Str := "NoScan".data

def UnknownT : Str := "Unknown".data

/-- Embeds `_sku_type`: NoScan set takes precedence; empty input and unknown
SKUs map to Unknown.  `m` is the loaded master dict, `ns` the NoScan set. -/
def _sku_type (m : Master) (ns : List Str) (sku : Str) : Str :=
  if _sku_norm sku = [] then UnknownT
  else if _sku_norm sku ∈ ns then NoScanT
  else match lookupM m (_sku_norm sku) with
    | some i => i.type
    | none => UnknownT

/-- Embeds `_canonical_name_for_sku`: display name, else name, else fallback. -/
def _canonical_name_for_sku (m : Master) (sku fallback : Str) : Str :=
  match lookupM m (_sku_norm sku) with
  | none => fallback
  | some i =>
    if i.display_name ≠ [] then i.display_name
    else if i.name ≠ [] then i.name
    else fallback

/-- Python `str.capitalize` (ASCII): first character uppercased, rest lowered. -/
def capStr : Str → Str
  | [] => []
  | c :: cs => upChar c :: lower cs

/-- Embeds the row-processing loop of `_load_sku_master` over the parsed CSV
rows.  A raised Python exception is modelled as `.error`: the `len(parts) == 3`
branch executes `parts[3]` and raises IndexError. -/
def loadSkuAux (acc : Master) : List (List Str) → Except Str Master
  | [] => .ok acc
  | parts :: rest =>
    if parts.length < 3 then loadSkuAux acc rest
    else if lower (trim (parts.headD [])) = "sku".data then loadSkuAux acc rest
    else if 4 ≤ parts.length then
      loadSkuAux
        (insertM acc (_sku_norm (upper (trim (parts.headD []))))
          { name := trim (parts.getD 1 []), display_name := trim (parts.getD 3 []),
            type := capStr (trim (parts.getD 2 [])) }) rest
    else .error "IndexError: list index out of range".data

/-- Embeds `_load_sku_master` applied to already-split CSV rows. -/
def loadSkuMasterRows (rows : List (List Str)) : Except Str Master := loadSkuAux [] rows

-- ---------------------------------------------------------------
-- Line store rows (orders_db.csv)
-- ---------------------------------------------------------------

/-- One stored order line.  `product_id` is the comma-separated token cell,
modelled as its list of comma-separated segments. -/
structure Row where
  order_date : Str
  order_id : Str
  customer_name : Str
  contact_number : Str
  product_name : Str
  sku : Str
  quantity : Str
  awb : Str
  product_id : List Str
  row_id : Str
  created_at : Str
  source_file : Str
  page_index : Str
deriving DecidableEq, Repr

/-- Embeds `_pid_list`: split on commas (already done by the model), strip
each token, drop blanks, uppercase. -/
def _pid_list (cell : List Str) : List Str :=
  cell.filterMap (fun t => if trim t = [] then none else some (upper (trim t)))

/-- Python `",".join`. -/
def joinComma : List Str → Str
  | [] => []
  | [x] => x
  | x :: xs => x ++ (',' :: joinComma xs)

/-- Python `split(",")`. -/
def splitComma (s : Str) : List Str :=
  s.foldr
    (fun c acc => match acc with
      | [] => [[c]]
      | a :: tl => if c = ',' then [] :: a :: tl else (c :: a) :: tl)
    [[]]

/-- The raw string held by a row's `product_id` CSV cell. -/
def cellOf (r : Row) : Str := joinComma r.product_id

/-- Decimal digits of a number (models Python's decimal formatting). -/
def natDigitsCore : Nat → Nat → Str
  | 0, _ => []
  | fuel + 1, n =>
    if n < 10 then [Char.ofNat (48 + n)]
    else natDigitsCore fuel (n / 10) ++ [Char.ofNat (48 + n % 10)]

def natDigits (n : Nat) : Str := natDigitsCore (n + 1) n

/-- Digits of a numeric string (used to embed Python `int`). -/
def digitsToNat (s : Str) : Nat := s.foldl (fun a c => a * 10 + (c.toNat - 48)) 0

/-- Python `int(s)` on a stripped string: optional sign, then digits;
anything else raises ValueError, modelled as `none`. -/
def parseIntPy (s : Str) : Option Int :=
  match s with
  | [] => none
  | c :: rest =>
    if c = '+' then
      if rest ≠ [] ∧ rest.all digB then some (digitsToNat rest) else none
    else if c = '-' then
      if rest ≠ [] ∧ rest.all digB then some (-(digitsToNat rest : Int)) else none
    else if (c :: rest).all digB then some (digitsToNat (c :: rest)) else none

/-- Embeds `_row_qty`: `int(str(row.quantity).strip() or "0")`, 0 on error. -/
def _row_qty (r : Row) : Int :=
  match parseIntPy (if trim r.quantity = [] then ['0'] else trim r.quantity) with
  | some n => n
  | none => 0

/-- Embeds `_row_done_units`. -/
def _row_done_units (r : Row) : Nat := (_pid_list r.product_id).length

/-- Embeds `_row_remaining_units`: `max(0, qty - done)`. -/
def _row_remaining_units (r : Row) : Int := max 0 (_row_qty r - (_row_done_units r : Int))

-- ---------------------------------------------------------------
-- Ingest (src/db.py `_norm_key`, `upsert_orders`)
-- ---------------------------------------------------------------

/-- Joins the dedup-key parts with the `"||"` separator; `_norm_key` is the
sha1 of this string, modelled by the pre-image (the source only ever compares
keys of equal inputs for membership). -/
def joinPP : List Str → Str
  | [] => []
  | [x] => x
  | x :: xs => x ++ ('|' :: '|' :: joinPP xs)

/-- Embeds `_norm_key`: dedup key over (awb upper, canonical name lower,
normalized sku, quantity string). -/
def _norm_key (m : Master) (r : Row) : Str :=
  joinPP [upper (trim r.awb),
    lower (_canonical_name_for_sku m r.sku (trim r.product_name)),
    _normalize_sku_for_db r.sku,
    trim r.quantity]

/-- One raw extracted line handed to `upsert_orders`. -/
structure RawLine where
  order_date : Str
  order_id : Str
  customer_name : Str
  contact_number : Str
  product_name : Str
  sku : Str
  quantity : Str
  awb : Str
  source_file : Str
  page_index : Str
deriving DecidableEq, Repr

/-- Models `md5(f"{k}|{now}")[:12]` by its pre-image (only used as a fresh id). -/
def rowIdOf (k now : Str) : Str := k ++ ('|' :: now)

/-- Embeds the `newr` dictionary built inside `upsert_orders`. -/
def mkNewRow (m : Master) (now : Str) (src : Option Str) (r : RawLine) : Row :=
  { order_date := trim r.order_date
    order_id := trim r.order_id
    customer_name := trim r.customer_name
    contact_number := trim r.contact_number
    product_name := _canonical_name_for_sku m (_normalize_sku_for_db r.sku) (trim r.product_name)
    sku := _normalize_sku_for_db r.sku
    quantity := trim r.quantity
    awb := trim r.awb
    product_id := []
    row_id := []
    created_at := now
    source_file :=
      (match src with
       | some s => if s = [] then trim r.source_file else s
       | none => trim r.source_file)
    page_index := trim r.page_index }

/-- The dedup key of an input line (`_norm_key` of its `newr`). -/
def rawKey (m : Master) (now : Str) (src : Option Str) (r : RawLine) : Str :=
  _norm_key m (mkNewRow m now src r)

/-- The loop of `upsert_orders`: returns (added, rows, existing keys). -/
def upsertAux (m : Master) (now : Str) (src : Option Str) :
    List RawLine → List Str → List Row → Nat → (Nat × List Row × List Str)
  | [], existing, acc, added => (added, acc, existing)
  | r :: rest, existing, acc, added =>
    if _norm_key m (mkNewRow m now src r) ∈ existing then
      upsertAux m now src rest existing acc added
    else
      upsertAux m now src rest
        (_norm_key m (mkNewRow m now src r) :: existing)
        (acc ++ [{ mkNewRow m now src r with
                   row_id := rowIdOf (_norm_key m (mkNewRow m now src r)) now }])
        (added + 1)

/-- Embeds `upsert_orders`: returns the inserted count and the new store. -/
def upsert_orders (m : Master) (now : Str) (src : Option Str)
    (rows : List RawLine) (db : List Row) : Nat × List Row :=
  if rows = [] then (0, db)
  else
    ((upsertAux m now src rows (db.map (_norm_key m)) db 0).1,
     if 0 < (upsertAux m now src rows (db.map (_norm_key m)) db 0).1 then
       (upsertAux m now src rows (db.map (_norm_key m)) db 0).2.1
     else db)

-- ---------------------------------------------------------------
-- Legacy bulk assign and manual confirm
-- ---------------------------------------------------------------

/-- Embeds `assign_product_id` (legacy: same token on every line of an AWB). -/
def assign_product_id (rows : List Row) (awb_in pid_in : Str) :
    (Bool × Str × Nat) × List Row :=
  if trim awb_in = [] ∨ upper (trim pid_in) = [] then
    ((false, "awb and product_id are required".data, 400), rows)
  else if rows.filter (fun r => trim r.awb == trim awb_in) = [] then
    ((false, "AWB ".data ++ trim awb_in ++ " not found".data, 404), rows)
  else
    if ((((rows.filter (fun r => trim r.awb == trim awb_in)).map
          (fun r => trim (cellOf r))).filter (fun v => v ≠ [])).dedup ≠ [] ∧
        (1 < ((((rows.filter (fun r => trim r.awb == trim awb_in)).map
          (fun r => trim (cellOf r))).filter (fun v => v ≠ [])).dedup).length ∨
         (((((rows.filter (fun r => trim r.awb == trim awb_in)).map
          (fun r => trim (cellOf r))).filter (fun v => v ≠ [])).dedup).length = 1 ∧
          upper (trim pid_in) ∉ (((rows.filter (fun r => trim r.awb == trim awb_in)).map
          (fun r => trim (cellOf r))).filter (fun v => v ≠ [])).dedup))) then
      ((false, "Conflicting product_id already set for AWB ".data ++ trim awb_in, 409), rows)
    else if 0 < ((rows.filter (fun r => trim r.awb == trim awb_in)).filter
        (fun r => trim (cellOf r) = [])).length then
      ((true, "product_id set for AWB ".data ++ trim awb_in, 200),
        rows.map (fun r =>
          if trim r.awb == trim awb_in ∧ trim (cellOf r) = [] then
            { r with product_id := splitComma (upper (trim pid_in)) }
          else r))
    else ((true, "No rows needed update".data, 200), rows)

/-- The loop of `confirm_extra` over the stored rows (acts on the first row
whose `row_id` matches; failures leave the store untouched). -/
def confirmLoop (m : Master) (ns : List Str) (rid : Str) :
    List Row → ((Bool × Str × Nat) × List Row)
  | [] => ((false, "row_id not found".data, 404), [])
  | r :: rest =>
    if trim r.row_id = rid then
      if trim r.sku ≠ [] ∧ _sku_type m ns (trim r.sku) ≠ NoScanT then
        ((false, "Not eligible for manual confirm".data, 409), r :: rest)
      else
        ((true, "Confirmed and hidden".data, 200),
          { r with product_id := splitComma "CONFIRMED_EXTRA".data } :: rest)
    else
      ((confirmLoop m ns rid rest).1, r :: (confirmLoop m ns rid rest).2)

/-- Embeds `confirm_extra`. -/
def confirm_extra (m : Master) (ns : List Str) (rows : List Row) (row_id : Str) :
    ((Bool × Str × Nat) × List Row) :=
  if trim row_id = [] then ((false, "row_id required".data, 400), rows)
  else confirmLoop m ns (trim row_id) rows

-- ---------------------------------------------------------------
-- Barcode grammar (src/db.py `_BARCODE_RX_PRIMARY`, `_BARCODE_RX_GENERIC`,
-- `_parse_barcode`)
-- ---------------------------------------------------------------

/-- Deterministic matcher for the device regex
`^\s*([A-Za-z]{2,}\d+)\s*-\s*([A-Za-z])\s*(\d{1,4})\s*$`; every quantifier's
greedy match is forced because the neighbouring character classes are
disjoint, so maximal-run scanning is equivalent to the regex. -/
def matchPrimary (s : Str) : Option (Str × Char × Str) :=
  if ((s.dropWhile wsB).takeWhile alB).length < 2 then none
  else if ((s.dropWhile wsB).dropWhile alB).takeWhile digB = [] then none
  else
    match ((((s.dropWhile wsB).dropWhile alB).dropWhile digB).dropWhile wsB) with
    | [] => none
    | c0 :: r2 =>
      if c0 = '-' then
        match r2.dropWhile wsB with
        | [] => none
        | c :: r4 =>
          if alB c then
            if 1 ≤ ((r4.dropWhile wsB).takeWhile digB).length ∧
                ((r4.dropWhile wsB).takeWhile digB).length ≤ 4 ∧
                ((r4.dropWhile wsB).dropWhile digB).all wsB then
              some ((s.dropWhile wsB).takeWhile alB ++
                    ((s.dropWhile wsB).dropWhile alB).takeWhile digB,
                    c, (r4.dropWhile wsB).takeWhile digB)
            else none
          else none
      else none

/-- Deterministic matcher for the generic regex
`^\s*([A-Za-z]{2,}\d+)(?:\s*-\s*([A-Za-z0-9]{1,10}))?\s*$`. -/
def matchGeneric (s : Str) : Option (Str × Option Str) :=
  if ((s.dropWhile wsB).takeWhile alB).length < 2 then none
  else if ((s.dropWhile wsB).dropWhile alB).takeWhile digB = [] then none
  else
    match ((((s.dropWhile wsB).dropWhile alB).dropWhile digB).dropWhile wsB) with
    | [] => some ((s.dropWhile wsB).takeWhile alB ++
                  ((s.dropWhile wsB).dropWhile alB).takeWhile digB, none)
    | c0 :: r3 =>
      if c0 = '-' then
        if 1 ≤ ((r3.dropWhile wsB).takeWhile alnumB).length ∧
            ((r3.dropWhile wsB).takeWhile alnumB).length ≤ 10 ∧
            ((r3.dropWhile wsB).dropWhile alnumB).all wsB then
          some ((s.dropWhile wsB).takeWhile alB ++
                ((s.dropWhile wsB).dropWhile alB).takeWhile digB,
                some ((r3.dropWhile wsB).takeWhile alnumB))
        else none
      else none

def noscanMsg : Str := "This SKU is configured as NoScan (Extras). Do not scan.".data

def compPrompt : Str := "Compulsory SKU requires device format (AT0001-A001).".data

def genericPrompt : Str := "Invalid barcode. Use AT0001-A001 or AT0100 / AT0100-ABC".data

def invalidMsg : Str := "Invalid barcode.".data

/-- Embeds the Loose auto-token `f"L{int(time.time()*1000)%1000000:06d}"`;
the current epoch milliseconds are a parameter `now`. -/
def autoTok (now : Nat) : Str := 'L' :: zfill 6 (natDigits (now % 1000000))

/-- Embeds `_parse_barcode`: returns `(sku4, pid)` or `(message, status)`. -/
def _parse_barcode (m : Master) (ns : List Str) (now : Nat) (code : Str) :
    Except (Str × Nat) (Str × Str) :=
  match matchPrimary (trim code) with
  | some (skuRaw, letter, ds) =>
    if _sku_type m ns (_normalize_sku_for_db skuRaw) = NoScanT then
      .error (noscanMsg, 409)
    else .ok (_normalize_sku_for_db skuRaw, upChar letter :: zfill 4 ds)
  | none =>
    match matchGeneric (trim code) with
    | some (skuRaw, tokOpt) =>
      if _sku_type m ns (_normalize_sku_for_db skuRaw) = NoScanT then
        .error (noscanMsg, 409)
      else if _sku_type m ns (_normalize_sku_for_db skuRaw) = LooseT then
        match tokOpt with
        | some tk =>
          if trim tk ≠ [] then .ok (_normalize_sku_for_db skuRaw, upper (trim tk))
          else .ok (_normalize_sku_for_db skuRaw, autoTok now)
        | none => .ok (_normalize_sku_for_db skuRaw, autoTok now)
      else
        match tokOpt with
        | some tk =>
          if tk ≠ [] then .error (compPrompt, 400) else .error (genericPrompt, 400)
        | none => .error (genericPrompt, 400)
    | none => .error (invalidMsg, 400)

-- ---------------------------------------------------------------
-- Allocation engine (src/db.py `assign_barcode`)
-- ---------------------------------------------------------------

/-- Embeds `_product_id_exists_anywhere`. -/
def _product_id_exists_anywhere (pid : Str) (rows : List Row) : Bool :=
  if upper (trim pid) = [] then false
  else rows.any (fun r => decide (upper (trim pid) ∈ _pid_list r.product_id))

/-- Embeds `_contact_group_units`: (done, total) over the contact's rows with
a non-blank SKU that is not NoScan. -/
def _contact_group_units (m : Master) (ns : List Str) (rows : List Row)
    (contact : Str) : Nat × Int :=
  rows.foldl
    (fun acc r =>
      if trim r.contact_number = trim contact ∧ trim r.sku ≠ [] ∧
          _sku_type m ns (trim r.sku) ≠ NoScanT then
        (acc.1 + _row_done_units r, acc.2 + _row_qty r)
      else acc)
    (0, 0)

/-- Rows paired with their list index, filtered (models iterating `rows` while
mutating `rows[i]` in place). -/
def enumFilter (p : Row → Bool) : Nat → List Row → List (Nat × Row)
  | _, [] => []
  | i, r :: rest => if p r then (i, r) :: enumFilter p (i + 1) rest else enumFilter p (i + 1) rest

/-- Candidate condition of `assign_barcode`: same normalized SKU, remaining units. -/
def candPred (sku4 : Str) (r : Row) : Bool :=
  _normalize_sku_for_db r.sku == sku4 && decide (0 < _row_remaining_units r)

/-- Candidate rows of `assign_barcode`, optionally narrowed to an active AWB
(a blank active AWB is falsy in Python and applies no narrowing). -/
def candidatesOf (rows : List Row) (sku4 : Str) (active_awb : Option Str) :
    List (Nat × Row) :=
  match active_awb with
  | some a =>
    if a = [] then enumFilter (candPred sku4) 0 rows
    else (enumFilter (candPred sku4) 0 rows).filter (fun ir => trim ir.2.awb == trim a)
  | none => enumFilter (candPred sku4) 0 rows

/-- Embeds `cnt_by_contact`: how many rows with a non-blank SKU (NoScan
included) the whole store holds for a contact. -/
def countSkuRows (rows : List Row) (contact : Str) : Nat :=
  rows.countP (fun r => !(trim r.sku == []) && trim r.contact_number == contact)

/-- The `singles` condition of `assign_barcode`'s tie-break. -/
def fastPathB (rows : List Row) (ir : Nat × Row) : Bool :=
  countSkuRows rows (trim ir.2.contact_number) == 1 && _row_qty ir.2 == 1

/-- Embeds `target = singles[0] if singles else cand[0]`. -/
def targetOf (rows : List Row) (cand : List (Nat × Row)) : Option (Nat × Row) :=
  match cand with
  | [] => none
  | c0 :: _ =>
    match cand.filter (fastPathB rows) with
    | s0 :: _ => some s0
    | [] => some c0

def dupMsg (pid : Str) : Str := "Barcode ".data ++ pid ++ " already assigned".data

def noUnitMsg (sku4 : Str) (aw : Option Str) : Str :=
  "No unassigned unit for SKU ".data ++ sku4 ++
    (match aw with
     | some a => if a = [] then [] else " under AWB ".data ++ a
     | none => [])

def assignedMsg (pid sku4 : Str) : Str := "Assigned ".data ++ pid ++ " → ".data ++ sku4

/-- The success payload of `assign_barcode`. -/
structure Payload where
  message : Str
  contact_number : Str
  group_complete : Bool
  awb : Str
  row_scanned : Nat
  row_qty : Int
  group_scanned : Nat
  group_qty : Int
  print_src : Option (Str × Str)
  sku_type : Str
deriving DecidableEq, Repr

/-- The `(ok, payload|message, status)` result of the engine's operations. -/
inductive AResult where
  | err (msg : Str) (status : Nat)
  | okA (p : Payload)
deriving DecidableEq, Repr

/-- Python `a or b` on strings. -/
def orElse2 (a b : Str) : Str := if a = [] then b else a

/-- The print-info computation of `assign_barcode` (only populated when the
group completes and both fields are non-blank). -/
def printSrcOf (m : Master) (ns : List Str) (rows' : List Row) (contact : Str)
    (target : Row) : Option (Str × Str) :=
  if (decide (0 < (_contact_group_units m ns rows' contact).2) &&
      decide ((_contact_group_units m ns rows' contact).2 ≤
        ((_contact_group_units m ns rows' contact).1 : Int))) = true then
    match rows'.filter (fun r => trim r.contact_number == contact &&
        !(trim r.sku == []) && !(_sku_type m ns r.sku == NoScanT)) with
    | [] => none
    | g0 :: _ =>
      if orElse2 (trim target.source_file) (trim g0.source_file) ≠ [] ∧
          orElse2 (trim target.page_index) (trim g0.page_index) ≠ [] then
        some (orElse2 (trim target.source_file) (trim g0.source_file),
              orElse2 (trim target.page_index) (trim g0.page_index))
      else none
  else none

/-- The success tail of `assign_barcode`: append the token to the target row,
persist, and compute the completion payload. -/
def finishAssign (m : Master) (ns : List Str) (rows : List Row)
    (sku4 pid st : Str) (t : Nat × Row) : AResult × List Row :=
  (.okA
    { message := assignedMsg pid sku4
      contact_number := trim t.2.contact_number
      group_complete :=
        decide (0 < (_contact_group_units m ns
          (rows.set t.1 { t.2 with product_id := _pid_list t.2.product_id ++ [pid] })
          (trim t.2.contact_number)).2) &&
        decide ((_contact_group_units m ns
          (rows.set t.1 { t.2 with product_id := _pid_list t.2.product_id ++ [pid] })
          (trim t.2.contact_number)).2 ≤
          ((_contact_group_units m ns
            (rows.set t.1 { t.2 with product_id := _pid_list t.2.product_id ++ [pid] })
            (trim t.2.contact_number)).1 : Int))
      awb := trim t.2.awb
      row_scanned := _row_done_units { t.2 with product_id := _pid_list t.2.product_id ++ [pid] }
      row_qty := _row_qty t.2
      group_scanned := (_contact_group_units m ns
        (rows.set t.1 { t.2 with product_id := _pid_list t.2.product_id ++ [pid] })
        (trim t.2.contact_number)).1
      group_qty := (_contact_group_units m ns
        (rows.set t.1 { t.2 with product_id := _pid_list t.2.product_id ++ [pid] })
        (trim t.2.contact_number)).2
      print_src := printSrcOf m ns
        (rows.set t.1 { t.2 with product_id := _pid_list t.2.product_id ++ [pid] })
        (trim t.2.contact_number)
        { t.2 with product_id := _pid_list t.2.product_id ++ [pid] }
      sku_type := st },
   rows.set t.1 { t.2 with product_id := _pid_list t.2.product_id ++ [pid] })

/-- Embeds `assign_barcode` over an explicit store (the CSV read/write pair
is the identity on the row list). -/
def assign_barcode (m : Master) (ns : List Str) (now : Nat) (rows : List Row)
    (barcode : Str) (active_awb : Option Str) : AResult × List Row :=
  match _parse_barcode m ns now (upper barcode) with
  | .error e => (.err e.1 e.2, rows)
  | .ok (sku4, pid) =>
    if (_sku_type m ns sku4 = CompulsoryT ∨ _sku_type m ns sku4 = UnknownT) ∧
        _product_id_exists_anywhere pid rows = true then
      (.err (dupMsg pid) 409, rows)
    else
      match targetOf rows (candidatesOf rows sku4 active_awb) with
      | none => (.err (noUnitMsg sku4 active_awb) 404, rows)
      | some t => finishAssign m ns rows sku4 pid (_sku_type m ns sku4) t

-- ---------------------------------------------------------------
-- The Lock state machine (claim C1).  The provided source has no Lock: the
-- engine in src/db.py only takes an optional `active_awb` hint, and the
-- lock discipline lives in the frontend, which is not part of src/.  The
-- definitions below are therefore modelled from the spec.
-- ---------------------------------------------------------------

/-- Modelled from the spec: the persisted Lock record `{group_key, expected_sku}`
(spec section 3); the Lock itself is not implemented in src/. -/
structure Lock where
  group : Str
  expected : Str
deriving DecidableEq, Repr

/-- Keep the first occurrence of each element. -/
def firstDedup (seen : List Str) : List Str → List Str
  | [] => []
  | x :: xs => if x ∈ seen then firstDedup seen xs else x :: firstDedup (x :: seen) xs

/-- Modelled from the spec: a group's pending-SKU list — SKUs, excluding
NoScan and blank, with remaining > 0, ordered by first appearance in the
store (spec section 4.4 step 4); not implemented in src/. -/
def pendingSkus (m : Master) (ns : List Str) (rows : List Row) (g : Str) : List Str :=
  firstDedup []
    ((rows.filter (fun r => trim r.contact_number == g && !(trim r.sku == []) &&
        !(_sku_type m ns r.sku == NoScanT) && decide (0 < _row_remaining_units r))).map
      (fun r => _normalize_sku_for_db r.sku))

/-- Modelled from the spec: the LockMismatch rejection names the expected SKU. -/
def lockMismatchMsg (expected : Str) : Str :=
  "Scan blocked by active lock; expected SKU ".data ++ expected

/-- Modelled from the spec: number of scannable lines (non-blank SKU, not
NoScan) of a group, for the tie-break of spec section 4.4 step 5. -/
def countScannable (m : Master) (ns : List Str) (rows : List Row) (contact : Str) : Nat :=
  rows.countP (fun r => trim r.contact_number == contact && !(trim r.sku == []) &&
    !(_sku_type m ns r.sku == NoScanT))

/-- Modelled from the spec: the single-item fast-path condition of step 5. -/
def fastPathSpecB (m : Master) (ns : List Str) (rows : List Row) (ir : Nat × Row) : Bool :=
  countScannable m ns rows (trim ir.2.contact_number) == 1 && _row_qty ir.2 == 1

/-- Modelled from the spec: step 5's target choice. -/
def targetSpecOf (m : Master) (ns : List Str) (rows : List Row)
    (cand : List (Nat × Row)) : Option (Nat × Row) :=
  match cand with
  | [] => none
  | c0 :: _ =>
    match cand.filter (fastPathSpecB m ns rows) with
    | s0 :: _ => some s0
    | [] => some c0

/-- Modelled from the spec: steps 6–8 under a lock — append the token, then
recompute the pending list: release when empty, keep the lock's SKU while it
is pending, else advance to the next pending SKU. -/
def allocFinishLock (m : Master) (ns : List Str) (rows : List Row)
    (sku4 pid : Str) (t : Nat × Row) (lk : Option Lock) : AResult × List Row × Option Lock :=
  ((finishAssign m ns rows sku4 pid (_sku_type m ns sku4) t).1,
   (finishAssign m ns rows sku4 pid (_sku_type m ns sku4) t).2,
   (if pendingSkus m ns (finishAssign m ns rows sku4 pid (_sku_type m ns sku4) t).2
        (match lk with | some l => l.group | none => trim t.2.contact_number) = [] then
      none
    else
      match lk with
      | some l =>
        if l.expected ∈ pendingSkus m ns (finishAssign m ns rows sku4 pid (_sku_type m ns sku4) t).2 l.group then
          some l
        else some ⟨l.group,
          (pendingSkus m ns (finishAssign m ns rows sku4 pid (_sku_type m ns sku4) t).2 l.group).headD []⟩
      | none =>
        some ⟨trim t.2.contact_number,
          (pendingSkus m ns (finishAssign m ns rows sku4 pid (_sku_type m ns sku4) t).2
            (trim t.2.contact_number)).headD []⟩))

/-- Modelled from the spec: step 5 — no applicable lock; narrow by the hint,
pick a target, acquire the lock on (group, sku). -/
def allocFree (m : Master) (ns : List Str) (rows : List Row) (sku4 pid : Str)
    (hint : Option Str) : AResult × List Row × Option Lock :=
  match targetSpecOf m ns rows (candidatesOf rows sku4 hint) with
  | none => (.err (noUnitMsg sku4 hint) 404, rows, none)
  | some t => allocFinishLock m ns rows sku4 pid t (some ⟨trim t.2.contact_number, sku4⟩)

/-- The expected SKU under a held lock (spec section 4.4 step 4): the lock's
remembered SKU while it is still pending, else the first pending SKU. -/
def expectedSku (m : Master) (ns : List Str) (rows : List Row) (lk : Lock) : Str :=
  if lk.expected ∈ pendingSkus m ns rows lk.group then lk.expected
  else (pendingSkus m ns rows lk.group).headD []

/-- Modelled from the spec: `allocate(rawBarcode, hint?)` with the persisted
Lock (spec section 4.4).  Steps: parse; global-uniqueness check; lock check
(release when no pending SKUs remain, reject LockMismatch on a mismatch,
else serve the locked group); otherwise free allocation acquiring the lock;
then append, persist and advance/release the lock. -/
def allocate_locked (m : Master) (ns : List Str) (now : Nat) (lock : Option Lock)
    (rows : List Row) (barcode : Str) (hint : Option Str) :
    AResult × List Row × Option Lock :=
  match _parse_barcode m ns now (upper barcode) with
  | .error e => (.err e.1 e.2, rows, lock)
  | .ok (sku4, pid) =>
    if (_sku_type m ns sku4 = CompulsoryT ∨ _sku_type m ns sku4 = UnknownT) ∧
        _product_id_exists_anywhere pid rows = true then
      (.err (dupMsg pid) 409, rows, lock)
    else
      match lock with
      | some lk =>
        if pendingSkus m ns rows lk.group = [] then allocFree m ns rows sku4 pid hint
        else if sku4 = expectedSku m ns rows lk then
          match (enumFilter (candPred sku4) 0 rows).filter
              (fun ir => trim ir.2.contact_number == lk.group) with
          | [] => (.err (noUnitMsg sku4 none) 404, rows, some lk)
          | c :: _ => allocFinishLock m ns rows sku4 pid c (some lk)
        else
          (.err (lockMismatchMsg (expectedSku m ns rows lk)) 409, rows, some lk)
      | none => allocFree m ns rows sku4 pid hint

-- ---------------------------------------------------------------
-- Invariant vocabulary used by the claims
-- ---------------------------------------------------------------

/-- A well-formed unit token: non-empty and fixed under the strip/uppercase
normalization that `_pid_list` applies on read (true of every token the
barcode grammar produces). -/
def pidClean (t : Str) : Prop := t ≠ [] ∧ trim t = t ∧ upper t = t

/-- A stored SKU that is a fixpoint of normalization (true of every row
written by `upsert_orders`). -/
def rowSkuWF (r : Row) : Prop := _normalize_sku_for_db r.sku = r.sku

def storeWF (rows : List Row) : Prop := ∀ r ∈ rows, rowSkuWF r

/-- Claim C2's uniqueness invariant: no token is held by two distinct lines
that both classify Compulsory or Unknown. -/
def uniqueCU (m : Master) (ns : List Str) (rows : List Row) : Prop :=
  ∀ i j ri rj, i ≠ j → rows.get? i = some ri → rows.get? j = some rj →
    (_sku_type m ns ri.sku = CompulsoryT ∨ _sku_type m ns ri.sku = UnknownT) →
    (_sku_type m ns rj.sku = CompulsoryT ∨ _sku_type m ns rj.sku = UnknownT) →
    ∀ t, t ∈ _pid_list ri.product_id → t ∉ _pid_list rj.product_id

/-- Claim C3's capacity invariant: `done ≤ quantity` on every line. -/
def capacityOK (rows : List Row) : Prop :=
  ∀ r ∈ rows, (_row_done_units r : Int) ≤ _row_qty r

/-- Claim C7's device-shaped suffix: a letter followed by 1–4 digits (when an
alphanumeric suffix has this shape the scan matches the device regex first). -/
def deviceShapeB : Str → Bool
  | [] => false
  | c :: ds => alB c && decide (1 ≤ ds.length) && decide (ds.length ≤ 4) && ds.all digB

-- ---------------------------------------------------------------
-- concrete stores used by the counterexamples and witnesses
-- ---------------------------------------------------------------

/-- A blank row to build fixtures from. -/
def row0 : Row :=
  { order_date := [], order_id := [], customer_name := [], contact_number := [],
    product_name := [], sku := [], quantity := [], awb := [], product_id := [],
    row_id := [], created_at := [], source_file := [], page_index := [] }

def c2m : Master := [("AT0001".data, ⟨"Widget".data, [], "Compulsory".data⟩)]

def c2Rows : List Row :=
  [{ row0 with
     contact_number := "5".data
     sku := "AT0001".data
     quantity := "1".data
     awb := "AWB1".data
     row_id := "r1".data },
   { row0 with
     contact_number := "6".data
     sku := "AT0001".data
     quantity := "1".data
     awb := "AWB1".data
     row_id := "r2".data }]

def c8m : Master := [("AT0001".data, ⟨"Widget".data, [], "Compulsory".data⟩)]

def c8ns : List Str := ["XX0001".data]

def c8Row222 : Row :=
  { row0 with
    contact_number := "222".data
    sku := "AT0001".data
    quantity := "2".data
    awb := "B2".data
    row_id := "a".data }

def c8Row111 : Row :=
  { row0 with
    contact_number := "111".data
    sku := "AT0001".data
    quantity := "1".data
    awb := "B1".data
    row_id := "b".data }

def c8RowNS : Row :=
  { row0 with
    contact_number := "111".data
    sku := "XX0001".data
    quantity := "1".data
    awb := "B1".data
    row_id := "c".data }

def c8Rows : List Row := [c8Row222, c8Row111, c8RowNS]

def c1m : Master :=
  [("AT0001".data, ⟨"WidgetA".data, [], "Compulsory".data⟩),
   ("BT0001".data, ⟨"WidgetB".data, [], "Compulsory".data⟩)]

def c1Rows : List Row :=
  [{ row0 with
     contact_number := "9".data
     sku := "AT0001".data
     quantity := "1".data
     awb := "C1".data
     row_id := "x1".data },
   { row0 with
     contact_number := "9".data
     sku := "BT0001".data
     quantity := "1".data
     awb := "C1".data
     row_id := "x2".data },
   { row0 with
     contact_number := "8".data
     sku := "BT0001".data
     quantity := "2".data
     awb := "C2".data
     row_id := "x3".data
     product_id := ["B0001".data] }]

-- ===============================================================
-- Theorems
-- ===============================================================

-- ---------------------------------------------------------------
-- character-level lemmas
-- ---------------------------------------------------------------

theorem char_toNat_ofNat {n : Nat} (h : n < 55296) : (Char.ofNat n).toNat = n := by
  have hv : n.isValidChar := Or.inl h
  rw [Char.ofNat, dif_pos hv]
  rfl

theorem upChar_toNat_of_lo {c : Char} (h : loAl c = true) :
    (upChar c).toNat = c.toNat - 32 := by
  have hb : 97 ≤ c.toNat ∧ c.toNat ≤ 122 := by
    simpa [loAl, Bool.and_eq_true, decide_eq_true_eq] using h
  have : c.toNat - 32 < 55296 := by omega
  rw [upChar, if_pos h]
  exact char_toNat_ofNat this

theorem upChar_of_not_lo {c : Char} (h : ¬ loAl c = true) : upChar c = c := by
  rw [upChar, if_neg h]

theorem loAl_toNat {c : Char} : loAl c = true ↔ (97 ≤ c.toNat ∧ c.toNat ≤ 122) := by
  simp [loAl, Bool.and_eq_true, decide_eq_true_eq]

theorem upAl_toNat {c : Char} : upAl c = true ↔ (65 ≤ c.toNat ∧ c.toNat ≤ 90) := by
  simp [upAl, Bool.and_eq_true, decide_eq_true_eq]

theorem digB_toNat {c : Char} : digB c = true ↔ (48 ≤ c.toNat ∧ c.toNat ≤ 57) := by
  simp [digB, Bool.and_eq_true, decide_eq_true_eq]

theorem wsB_toNat {c : Char} : wsB c = true ↔
    (c.toNat = 32 ∨ c.toNat = 9 ∨ c.toNat = 10 ∨ c.toNat = 13 ∨ c.toNat = 11 ∨ c.toNat = 12) := by
  simp [wsB, Bool.or_eq_true, decide_eq_true_eq, or_assoc]

/-- Uppercasing keeps whitespace-status unchanged. -/
theorem wsB_upChar (c : Char) : wsB (upChar c) = wsB c := by
  by_cases h : loAl c = true
  · have hlo := loAl_toNat.mp h
    have ht := upChar_toNat_of_lo h
    have h1 : wsB (upChar c) = false := by
      rw [← Bool.not_eq_true, wsB_toNat]; omega
    have h2 : wsB c = false := by
      rw [← Bool.not_eq_true, wsB_toNat]; omega
    rw [h1, h2]
  · rw [upChar_of_not_lo h]

/-- Uppercasing an upper-case letter is the identity. -/
theorem upChar_of_upAl {c : Char} (h : upAl c = true) : upChar c = c := by
  apply upChar_of_not_lo
  have := upAl_toNat.mp h
  rw [loAl_toNat]
  omega

theorem upChar_of_digB {c : Char} (h : digB c = true) : upChar c = c := by
  apply upChar_of_not_lo
  have := digB_toNat.mp h
  rw [loAl_toNat]
  omega

/-- Uppercasing a letter yields an upper-case letter. -/
theorem upAl_upChar_of_alB {c : Char} (h : alB c = true) : upAl (upChar c) = true := by
  rcases Bool.or_eq_true _ _ |>.mp h with hu | hl
  · rw [upChar_of_upAl hu]; exact hu
  · have hlo := loAl_toNat.mp hl
    rw [upAl_toNat, upChar_toNat_of_lo hl]
    omega

/-- Uppercasing is idempotent. -/
theorem upChar_idem (c : Char) : upChar (upChar c) = upChar c := by
  by_cases h : loAl c = true
  · have hlo := loAl_toNat.mp h
    have ht := upChar_toNat_of_lo h
    apply upChar_of_not_lo
    rw [loAl_toNat]
    omega
  · rw [upChar_of_not_lo h]
    exact upChar_of_not_lo h

/-- Uppercasing keeps alphanumeric-status unchanged. -/
theorem alnumB_upChar (c : Char) : alnumB (upChar c) = alnumB c := by
  by_cases h : loAl c = true
  · have hlo := loAl_toNat.mp h
    have ht := upChar_toNat_of_lo h
    have h1 : alnumB (upChar c) = true := by
      simp only [alnumB, alB, upAl, loAl, digB, Bool.or_eq_true, Bool.and_eq_true,
        decide_eq_true_eq]
      omega
    have h2 : alnumB c = true := by
      simp only [alnumB, alB, upAl, loAl, digB, Bool.or_eq_true, Bool.and_eq_true,
        decide_eq_true_eq]
      omega
    rw [h1, h2]
  · rw [upChar_of_not_lo h]

/-- Alphanumeric characters are not whitespace. -/
theorem not_wsB_of_alnumB {c : Char} (h : alnumB c = true) : wsB c = false := by
  have : (65 ≤ c.toNat ∧ c.toNat ≤ 90) ∨ (97 ≤ c.toNat ∧ c.toNat ≤ 122)
      ∨ (48 ≤ c.toNat ∧ c.toNat ≤ 57) := by
    simpa [alnumB, alB, upAl, loAl, digB, Bool.or_eq_true, Bool.and_eq_true,
      decide_eq_true_eq, or_assoc] using h
  simp only [wsB, Bool.or_eq_false_iff, decide_eq_false_iff_not]
  omega

theorem not_wsB_of_alB {c : Char} (h : alB c = true) : wsB c = false :=
  not_wsB_of_alnumB (by simp [alnumB, h])

theorem not_wsB_of_digB {c : Char} (h : digB c = true) : wsB c = false :=
  not_wsB_of_alnumB (by simp [alnumB, alB, h])

theorem alB_of_upAl {c : Char} (h : upAl c = true) : alB c = true := by
  simp [alB, h]

theorem alnumB_of_digB {c : Char} (h : digB c = true) : alnumB c = true := by
  simp [alnumB, h]

theorem alnumB_of_alB {c : Char} (h : alB c = true) : alnumB c = true := by
  simp [alnumB, h]

theorem not_digB_of_upAl {c : Char} (h : upAl c = true) : digB c = false := by
  have := upAl_toNat.mp h
  rw [← Bool.not_eq_true, digB_toNat]
  omega

theorem not_upAl_of_digB {c : Char} (h : digB c = true) : upAl c = false := by
  have := digB_toNat.mp h
  rw [← Bool.not_eq_true, upAl_toNat]
  omega

theorem not_alB_of_digB {c : Char} (h : digB c = true) : alB c = false := by
  have := digB_toNat.mp h
  rw [← Bool.not_eq_true]
  simp only [alB, upAl, loAl, Bool.or_eq_true, Bool.and_eq_true, decide_eq_true_eq]
  omega

theorem not_digB_of_alB {c : Char} (h : alB c = true) : digB c = false := by
  have : (65 ≤ c.toNat ∧ c.toNat ≤ 90) ∨ (97 ≤ c.toNat ∧ c.toNat ≤ 122) := by
    simpa [alB, upAl, loAl, Bool.or_eq_true, Bool.and_eq_true, decide_eq_true_eq] using h
  rw [← Bool.not_eq_true, digB_toNat]
  omega

-- ---------------------------------------------------------------
-- list-level helpers about takeWhile / dropWhile / trim / upper
-- ---------------------------------------------------------------

theorem takeWhile_append_all {p : Char → Bool} {xs : Str} (ys : Str)
    (h : ∀ c ∈ xs, p c = true) : (xs ++ ys).takeWhile p = xs ++ ys.takeWhile p := by
  induction xs with
  | nil => simp
  | cons a l ih =>
    have ha : p a = true := h a (List.mem_cons_self a l)
    simp only [List.cons_append, List.takeWhile_cons, ha, if_true]
    rw [ih (fun c hc => h c (List.mem_cons_of_mem a hc))]

theorem dropWhile_append_all {p : Char → Bool} {xs : Str} (ys : Str)
    (h : ∀ c ∈ xs, p c = true) : (xs ++ ys).dropWhile p = ys.dropWhile p := by
  induction xs with
  | nil => simp
  | cons a l ih =>
    have ha : p a = true := h a (List.mem_cons_self a l)
    simp only [List.cons_append, List.dropWhile_cons, ha, if_true]
    exact ih (fun c hc => h c (List.mem_cons_of_mem a hc))

theorem takeWhile_cons_false {p : Char → Bool} {a : Char} (l : Str)
    (h : p a = false) : (a :: l).takeWhile p = [] := by
  simp [List.takeWhile_cons, h]

theorem dropWhile_cons_false {p : Char → Bool} {a : Char} (l : Str)
    (h : p a = false) : (a :: l).dropWhile p = a :: l := by
  simp [List.dropWhile_cons, h]

theorem takeWhile_eq_self_of_all {p : Char → Bool} {xs : Str}
    (h : ∀ c ∈ xs, p c = true) : xs.takeWhile p = xs := by
  have := @takeWhile_append_all p xs [] h
  simpa using this

theorem dropWhile_eq_nil_of_all {p : Char → Bool} {xs : Str}
    (h : ∀ c ∈ xs, p c = true) : xs.dropWhile p = [] := by
  have := @dropWhile_append_all p xs [] h
  simpa using this

/-- A string with no whitespace characters is unchanged by `trim`. -/
theorem trim_eq_self_of_no_ws {s : Str} (h : ∀ c ∈ s, wsB c = false) : trim s = s := by
  unfold trim
  have h1 : s.dropWhile wsB = s := by
    cases s with
    | nil => rfl
    | cons a l => exact dropWhile_cons_false l (h a (List.mem_cons_self a l))
  rw [h1]
  have h2 : s.reverse.dropWhile wsB = s.reverse := by
    cases hs : s.reverse with
    | nil => rfl
    | cons a l =>
      have ha : a ∈ s := by
        have : a ∈ s.reverse := by rw [hs]; exact List.mem_cons_self a l
        simpa using this
      exact dropWhile_cons_false l (h a ha)
  rw [h2, List.reverse_reverse]

theorem trim_nil : trim [] = [] := rfl

theorem dropWhile_ws_upper (l : Str) :
    List.dropWhile wsB (List.map upChar l) = List.map upChar (List.dropWhile wsB l) := by
  rw [List.dropWhile_map]
  have hw : (wsB ∘ upChar) = wsB := by
    funext c; exact wsB_upChar c
  rw [hw]

/-- Uppercasing commutes with trimming. -/
theorem upper_trim (s : Str) : upper (trim s) = trim (upper s) := by
  unfold trim upper
  rw [dropWhile_ws_upper s, ← List.map_reverse, dropWhile_ws_upper, List.map_reverse]

/-- Uppercasing is idempotent on strings. -/
theorem upper_upper (s : Str) : upper (upper s) = upper s := by
  unfold upper
  rw [List.map_map]
  congr 1
  funext c
  exact upChar_idem c

theorem upper_append (a b : Str) : upper (a ++ b) = upper a ++ upper b := by
  simp [upper]

theorem trim_eq_nil_iff_upper {s : Str} : trim (upper s) = [] ↔ trim s = [] := by
  constructor
  · intro h
    have h2 : upper (trim s) = [] := (upper_trim s).trans h
    exact List.map_eq_nil_iff.mp h2
  · intro h
    rw [← upper_trim, h]
    rfl

-- ---------------------------------------------------------------
-- claim C6: `_normalize_sku_for_db` matches the spec's description
-- ---------------------------------------------------------------

theorem strip_upper_comm (raw : Str) :
    upper (raw.filter alnumB) = _sku_norm raw := by
  unfold _sku_norm upper
  induction raw with
  | nil => rfl
  | cons a l ih =>
    by_cases h : alnumB a = true
    · have h2 : alnumB (upChar a) = true := by rw [alnumB_upChar]; exact h
      simp only [List.filter_cons, List.map_cons, h, h2, if_true]
      rw [ih]
    · have h1 : alnumB a = false := by revert h; cases alnumB a <;> simp
      have h2 : alnumB (upChar a) = false := by rw [alnumB_upChar]; exact h1
      simp only [List.filter_cons, List.map_cons, h1, h2]
      simpa using ih

theorem mem_sku_norm_alnum {raw : Str} {c : Char} (h : c ∈ _sku_norm raw) :
    alnumB c = true := by
  unfold _sku_norm at h
  exact List.of_mem_filter h

theorem mem_sku_norm_not_lo {raw : Str} {c : Char} (h : c ∈ _sku_norm raw) :
    alB c = true → upAl c = true := by
  intro hal
  unfold _sku_norm upper at h
  rcases List.mem_filter.mp h with ⟨hm, _⟩
  rcases List.mem_map.mp hm with ⟨d, _, hd⟩
  subst hd
  by_cases hlo : loAl d = true
  · have := loAl_toNat.mp hlo
    rw [upAl_toNat, upChar_toNat_of_lo hlo]
    omega
  · rw [upChar_of_not_lo hlo] at hal ⊢
    rcases Bool.or_eq_true _ _ |>.mp hal with h1 | h1
    · exact h1
    · exact absurd h1 hlo

theorem preOf_eq (t : Str) : preOf t = (t.reverse.dropWhile digB).reverse := by
  unfold preOf dtailOf
  have hsp := List.takeWhile_append_dropWhile digB t.reverse
  have hlt : (t.reverse.takeWhile digB).length + (t.reverse.dropWhile digB).length
      = t.length := by
    have h1 := congrArg List.length hsp
    rwa [List.length_append, List.length_reverse] at h1
  rw [List.length_reverse]
  have h2 : t.length - (t.reverse.takeWhile digB).length
      = ((t.reverse.dropWhile digB).reverse).length := by
    rw [List.length_reverse]; omega
  rw [h2]
  have hsplit2 : (t.reverse.dropWhile digB).reverse ++ (t.reverse.takeWhile digB).reverse
      = t := by
    rw [← List.reverse_append, hsp, List.reverse_reverse]
  nth_rewrite 2 [← hsplit2]
  exact List.take_left _ _

theorem split_pre_dtail (t : Str) : preOf t ++ dtailOf t = t := by
  rw [preOf_eq]
  unfold dtailOf
  rw [← List.reverse_append, List.takeWhile_append_dropWhile, List.reverse_reverse]

theorem dtail_all_digB (t : Str) : ∀ c ∈ dtailOf t, digB c = true := by
  intro c hc
  exact List.mem_takeWhile_imp (List.mem_reverse.mp hc)

theorem decomp_code_to_spec {t : Str} (hl : t.takeWhile upAl ≠ [])
    (hd : t.dropWhile upAl ≠ []) (hdd : (t.dropWhile upAl).all digB = true) :
    dtailOf t = t.dropWhile upAl ∧ preOf t = t.takeWhile upAl := by
  have hsp := List.takeWhile_append_dropWhile upAl t
  have hDall : ∀ c ∈ t.dropWhile upAl, digB c = true := List.all_eq_true.mp hdd
  have h1 : t.reverse.takeWhile digB = (t.dropWhile upAl).reverse := by
    conv_lhs => rw [← hsp]
    rw [List.reverse_append,
      takeWhile_append_all _ (fun c hc => hDall c (List.mem_reverse.mp hc))]
    rcases hL : (t.takeWhile upAl).reverse with _ | ⟨a, l⟩
    · exact absurd (by simpa using hL) hl
    · have ha : a ∈ t.takeWhile upAl := by
        have : a ∈ (t.takeWhile upAl).reverse := by
          rw [hL]; exact List.mem_cons_self a l
        simpa using this
      rw [takeWhile_cons_false l (not_digB_of_upAl (List.mem_takeWhile_imp ha))]
      simp
  constructor
  · unfold dtailOf
    rw [h1, List.reverse_reverse]
  · rw [preOf_eq]
    have h2 : t.reverse.dropWhile digB = (t.takeWhile upAl).reverse := by
      conv_lhs => rw [← hsp]
      rw [List.reverse_append,
        dropWhile_append_all _ (fun c hc => hDall c (List.mem_reverse.mp hc))]
      rcases hL : (t.takeWhile upAl).reverse with _ | ⟨a, l⟩
      · rfl
      · have ha : a ∈ t.takeWhile upAl := by
          have : a ∈ (t.takeWhile upAl).reverse := by
            rw [hL]; exact List.mem_cons_self a l
          simpa using this
        exact dropWhile_cons_false l (not_digB_of_upAl (List.mem_takeWhile_imp ha))
    rw [h2, List.reverse_reverse]

theorem decomp_spec_to_code {t : Str}
    (hup : ∀ c ∈ t, alB c = true → upAl c = true)
    (hp : preOf t ≠ []) (hdt : dtailOf t ≠ []) (hpa : (preOf t).all alB = true) :
    t.takeWhile upAl = preOf t ∧ t.dropWhile upAl = dtailOf t := by
  have hsp := split_pre_dtail t
  have hPall : ∀ c ∈ preOf t, upAl c = true := by
    intro c hc
    exact hup c (by rw [← hsp]; exact List.mem_append.mpr (Or.inl hc))
      (List.all_eq_true.mp hpa c hc)
  have hDall := dtail_all_digB t
  constructor
  · conv_lhs => rw [← hsp]
    rw [takeWhile_append_all _ hPall]
    rcases hD : dtailOf t with _ | ⟨a, l⟩
    · simp
    · have ha : a ∈ dtailOf t := by rw [hD]; exact List.mem_cons_self a l
      rw [takeWhile_cons_false l (not_upAl_of_digB (hDall a ha))]
      simp
  · conv_lhs => rw [← hsp]
    rw [dropWhile_append_all _ hPall]
    rcases hD : dtailOf t with _ | ⟨a, l⟩
    · rfl
    · have ha : a ∈ dtailOf t := by rw [hD]; exact List.mem_cons_self a l
      exact dropWhile_cons_false l (not_upAl_of_digB (hDall a ha))

/-- Claim C6: `_normalize_sku_for_db` maps any raw SKU exactly as the spec
describes — strip non-alphanumerics and uppercase; when the result is letters
followed by digits, zero-pad the digit tail to 4 (truncating to the last 4
when longer); otherwise return the stripped-uppercased string unchanged
(including the empty string for blank input). -/
theorem c6_normalize_matches_spec (raw : Str) :
    _normalize_sku_for_db raw = normalizeSpecC6 raw := by
  unfold _normalize_sku_for_db normalizeSpecC6
  rw [strip_upper_comm raw]
  by_cases hcode : (_sku_norm raw).takeWhile upAl ≠ [] ∧
      (_sku_norm raw).dropWhile upAl ≠ [] ∧
      ((_sku_norm raw).dropWhile upAl).all digB = true
  · obtain ⟨hl, hd, hdd⟩ := hcode
    obtain ⟨hdt, hpre⟩ := decomp_code_to_spec hl hd hdd
    rw [if_pos ⟨hl, hd, hdd⟩, hdt, hpre, if_pos ?hc]
    case hc =>
      refine ⟨hl, hd, List.all_eq_true.mpr fun c hc => alB_of_upAl (List.mem_takeWhile_imp hc)⟩
    congr 1
    unfold pad4tail
    by_cases h4 : 4 ≤ ((_sku_norm raw).dropWhile upAl).length
    · rw [if_pos h4]
      by_cases h5 : 4 < ((_sku_norm raw).dropWhile upAl).length
      · rw [if_pos h5]
      · have h6 : ((_sku_norm raw).dropWhile upAl).length = 4 := by omega
        rw [if_neg h5]
        unfold zfill
        rw [if_pos (by omega), h6]
        simp
    · rw [if_neg h4, if_neg (by omega)]
  · rw [if_neg hcode]
    by_cases hspec : preOf (_sku_norm raw) ≠ [] ∧ dtailOf (_sku_norm raw) ≠ [] ∧
        (preOf (_sku_norm raw)).all alB = true
    · exfalso
      obtain ⟨hp, hdt2, hpa⟩ := hspec
      obtain ⟨htw, hdw⟩ :=
        decomp_spec_to_code (fun c hc => mem_sku_norm_not_lo hc) hp hdt2 hpa
      exact hcode ⟨by rw [htw]; exact hp, by rw [hdw]; exact hdt2,
        by rw [hdw]; exact List.all_eq_true.mpr (dtail_all_digB _)⟩
    · rw [if_neg hspec]

-- ---------------------------------------------------------------
-- barcode grammar characterization (claims C5, C7)
-- ---------------------------------------------------------------

theorem dropWhile_head_false {p : Char → Bool} {l : Str} {x : Char} {xs : Str}
    (h : l.dropWhile p = x :: xs) : p x = false := by
  induction l with
  | nil => simp at h
  | cons a t ih =>
    by_cases hp : p a = true
    · simp only [List.dropWhile_cons, hp, if_true] at h
      exact ih h
    · have hp' : p a = false := by revert hp; cases p a <;> simp
      simp only [List.dropWhile_cons, hp'] at h
      simp only [Bool.false_eq_true, if_false] at h
      cases h
      exact hp'

theorem all_of_dropWhile_nil {p : Char → Bool} {l : Str}
    (h : l.dropWhile p = []) : ∀ c ∈ l, p c = true := by
  induction l with
  | nil => intro c hc; simp at hc
  | cons a t ih =>
    by_cases hp : p a = true
    · simp only [List.dropWhile_cons, hp, if_true] at h
      intro c hc
      rcases List.mem_cons.mp hc with rfl | hc2
      · exact hp
      · exact ih h c hc2
    · have hp' : p a = false := by revert hp; cases p a <;> simp
      simp only [List.dropWhile_cons, hp', Bool.false_eq_true, if_false] at h
      cases h

theorem mem_of_mem_dropWhile {p : Char → Bool} {l : Str} {c : Char}
    (h : c ∈ l.dropWhile p) : c ∈ l :=
  (List.dropWhile_sublist p).subset h

theorem dropWhile_ws_self {l : Str} (h : ∀ c ∈ l, wsB c = false) :
    l.dropWhile wsB = l := by
  cases l with
  | nil => rfl
  | cons a t => exact dropWhile_cons_false t (h a (List.mem_cons_self a t))

/-- Scanning the `letters`/`digits` prefix of a barcode: with a tail that is
empty or starts with a hyphen, the maximal runs are exactly the blocks. -/
theorem scanA {L D tail : Str} (hL : ∀ x ∈ L, alB x = true) (hL1 : L ≠ [])
    (hD : ∀ x ∈ D, digB x = true) (hD1 : D ≠ [])
    (htl : tail = [] ∨ ∃ t', tail = '-' :: t') :
    (L ++ (D ++ tail)).dropWhile wsB = L ++ (D ++ tail) ∧
    (L ++ (D ++ tail)).takeWhile alB = L ∧
    (L ++ (D ++ tail)).dropWhile alB = D ++ tail ∧
    (D ++ tail).takeWhile digB = D ∧
    (D ++ tail).dropWhile digB = tail := by
  obtain ⟨b, D', rfl⟩ := List.exists_cons_of_ne_nil hD1
  have hb : digB b = true := hD b (List.mem_cons_self _ _)
  obtain ⟨a, L', rfl⟩ := List.exists_cons_of_ne_nil hL1
  have ha : alB a = true := hL a (List.mem_cons_self _ _)
  have htl2 : tail.takeWhile digB = [] ∧ tail.dropWhile digB = tail := by
    rcases htl with rfl | ⟨t', rfl⟩
    · exact ⟨rfl, rfl⟩
    · exact ⟨takeWhile_cons_false t' (by decide), dropWhile_cons_false t' (by decide)⟩
  refine ⟨?_, ?_, ?_, ?_, ?_⟩
  · simp only [List.cons_append]
    exact dropWhile_cons_false _ (not_wsB_of_alB ha)
  · rw [takeWhile_append_all _ hL]
    simp only [List.cons_append]
    rw [takeWhile_cons_false _ (not_alB_of_digB hb)]
    simp
  · rw [dropWhile_append_all _ hL]
    simp only [List.cons_append]
    exact dropWhile_cons_false _ (not_alB_of_digB hb)
  · have := @takeWhile_append_all digB (b :: D') tail hD
    rw [this, htl2.1]
    simp
  · have := @dropWhile_append_all digB (b :: D') tail hD
    rw [this, htl2.2]

/-- The device regex accepts `letters(≥2) digits '-' letter digits(1..4)`. -/
theorem matchPrimary_device {L D ds : Str} {c : Char}
    (hL : ∀ x ∈ L, alB x = true) (hL2 : 2 ≤ L.length)
    (hD : ∀ x ∈ D, digB x = true) (hD1 : D ≠ [])
    (hc : alB c = true) (hds : ∀ x ∈ ds, digB x = true) (hds1 : 1 ≤ ds.length)
    (hds4 : ds.length ≤ 4) :
    matchPrimary (L ++ (D ++ ('-' :: c :: ds))) = some (L ++ D, c, ds) := by
  have hL1 : L ≠ [] := by intro h; rw [h] at hL2; simp at hL2
  obtain ⟨e0, e1, e2, e3, e4⟩ := scanA hL hL1 hD hD1 (Or.inr ⟨c :: ds, rfl⟩)
  have e5 : ('-' :: c :: ds).dropWhile wsB = '-' :: c :: ds :=
    dropWhile_cons_false _ (by decide)
  have e7 : (c :: ds).dropWhile wsB = c :: ds :=
    dropWhile_cons_false _ (not_wsB_of_alB hc)
  have e8 : ds.dropWhile wsB = ds := by
    cases ds with
    | nil => rfl
    | cons d ds' =>
      exact dropWhile_cons_false _ (not_wsB_of_digB (hds d (List.mem_cons_self _ _)))
  have e9 : ds.takeWhile digB = ds := takeWhile_eq_self_of_all hds
  have e10 : ds.dropWhile digB = [] := dropWhile_eq_nil_of_all hds
  unfold matchPrimary
  rw [e0, e1, e2, e3, e4, e5]
  rw [if_neg (by omega)]
  rw [if_neg hD1]
  dsimp only
  rw [if_pos rfl, e7]
  dsimp only
  rw [if_pos hc, e8, e9, e10]
  rw [if_pos ⟨hds1, hds4, by simp⟩]

/-- The device regex rejects a bare `letters digits` scan (no hyphen). -/
theorem matchPrimary_bare {L D : Str}
    (hL : ∀ x ∈ L, alB x = true) (hL1 : L ≠ [])
    (hD : ∀ x ∈ D, digB x = true) (hD1 : D ≠ []) :
    matchPrimary (L ++ (D ++ [])) = none := by
  obtain ⟨e0, e1, e2, e3, e4⟩ := scanA hL hL1 hD hD1 (Or.inl rfl)
  unfold matchPrimary
  rw [e0, e1, e2, e3, e4]
  by_cases h2 : L.length < 2
  · rw [if_pos h2]
  · rw [if_neg h2, if_neg hD1]
    rfl

/-- The device regex rejects `letters digits '-' suffix` whenever the
alphanumeric suffix is not letter-then-1..4-digits. -/
theorem matchPrimary_suffix_not_device {L D sfx : Str}
    (hL : ∀ x ∈ L, alB x = true) (hL1 : L ≠ [])
    (hD : ∀ x ∈ D, digB x = true) (hD1 : D ≠ [])
    (hs : ∀ x ∈ sfx, alnumB x = true) (h1 : 1 ≤ sfx.length)
    (hnd : deviceShapeB sfx = false) :
    matchPrimary (L ++ (D ++ ('-' :: sfx))) = none := by
  obtain ⟨e0, e1, e2, e3, e4⟩ := scanA hL hL1 hD hD1 (Or.inr ⟨sfx, rfl⟩)
  have e5 : ('-' :: sfx).dropWhile wsB = '-' :: sfx :=
    dropWhile_cons_false _ (by decide)
  unfold matchPrimary
  rw [e0, e1, e2, e3, e4, e5]
  by_cases h2 : L.length < 2
  · rw [if_pos h2]
  · rw [if_neg h2, if_neg hD1]
    dsimp only
    rw [if_pos rfl]
    obtain ⟨x, s', rfl⟩ : ∃ x s', sfx = x :: s' := by
      cases sfx with
      | nil => simp at h1
      | cons x s' => exact ⟨x, s', rfl⟩
    have e6 : (x :: s').dropWhile wsB = x :: s' :=
      dropWhile_cons_false _ (not_wsB_of_alnumB (hs x (List.mem_cons_self _ _)))
    rw [e6]
    dsimp only
    by_cases hx : alB x = true
    · rw [if_pos hx]
      have hs' : ∀ y ∈ s', alnumB y = true :=
        fun y hy => hs y (List.mem_cons_of_mem _ hy)
      have e7 : s'.dropWhile wsB = s' := by
        cases s' with
        | nil => rfl
        | cons y t =>
          exact dropWhile_cons_false _
            (not_wsB_of_alnumB (hs' y (List.mem_cons_self _ _)))
      rw [e7]
      -- from ¬deviceShape: s' empty, or not all digits, or longer than 4
      have hcases : s' = [] ∨ (¬ s'.all digB = true) ∨
          (s'.all digB = true ∧ 4 < s'.length) := by
        by_cases hz : s' = []
        · exact Or.inl hz
        · by_cases hall : s'.all digB = true
          · right; right
            refine ⟨hall, ?_⟩
            have h1' : (1 ≤ s'.length) := by
              cases s' with
              | nil => exact absurd rfl hz
              | cons _ _ => simp
            unfold deviceShapeB at hnd
            simp only [hx, hall, Bool.true_and, Bool.and_true,
              decide_eq_true_eq, h1', decide_True] at hnd
            have := decide_eq_false_iff_not.mp hnd
            omega
          · exact Or.inr (Or.inl hall)
      apply if_neg
      rintro ⟨hc1, hc2, hc3⟩
      rcases hcases with rfl | hnall | ⟨hall, hgt⟩
      · simp at hc1
      · have hne : s'.dropWhile digB ≠ [] := by
          intro hnil
          exact hnall (List.all_eq_true.mpr (all_of_dropWhile_nil hnil))
        obtain ⟨y, ys, hy⟩ := List.exists_cons_of_ne_nil hne
        have hymem : y ∈ s' := mem_of_mem_dropWhile (by rw [hy]; exact List.mem_cons_self _ _)
        have hyal : alnumB y = true := hs' y hymem
        have hyws : wsB y = false := not_wsB_of_alnumB hyal
        rw [hy] at hc3
        have := List.all_eq_true.mp hc3 y (List.mem_cons_self _ _)
        rw [hyws] at this
        cases this
      · have heq : s'.takeWhile digB = s' :=
          takeWhile_eq_self_of_all (List.all_eq_true.mp hall)
        rw [heq] at hc2
        omega
    · rw [if_neg hx]

/-- The generic regex accepts a bare `letters(≥2) digits` scan, no suffix. -/
theorem matchGeneric_bare {L D : Str}
    (hL : ∀ x ∈ L, alB x = true) (hL2 : 2 ≤ L.length)
    (hD : ∀ x ∈ D, digB x = true) (hD1 : D ≠ []) :
    matchGeneric (L ++ (D ++ [])) = some (L ++ D, none) := by
  have hL1 : L ≠ [] := by intro h; rw [h] at hL2; simp at hL2
  obtain ⟨e0, e1, e2, e3, e4⟩ := scanA hL hL1 hD hD1 (Or.inl rfl)
  unfold matchGeneric
  rw [e0, e1, e2, e3, e4]
  rw [if_neg (by omega), if_neg hD1]
  rfl

/-- The generic regex accepts `letters(≥2) digits '-' suffix` for an
alphanumeric suffix of length 1..10. -/
theorem matchGeneric_suffix {L D sfx : Str}
    (hL : ∀ x ∈ L, alB x = true) (hL2 : 2 ≤ L.length)
    (hD : ∀ x ∈ D, digB x = true) (hD1 : D ≠ [])
    (hs : ∀ x ∈ sfx, alnumB x = true) (h1 : 1 ≤ sfx.length) (h10 : sfx.length ≤ 10) :
    matchGeneric (L ++ (D ++ ('-' :: sfx))) = some (L ++ D, some sfx) := by
  have hL1 : L ≠ [] := by intro h; rw [h] at hL2; simp at hL2
  obtain ⟨e0, e1, e2, e3, e4⟩ := scanA hL hL1 hD hD1 (Or.inr ⟨sfx, rfl⟩)
  have e5 : ('-' :: sfx).dropWhile wsB = '-' :: sfx :=
    dropWhile_cons_false _ (by decide)
  have e6 : sfx.dropWhile wsB = sfx := by
    cases sfx with
    | nil => rfl
    | cons x t =>
      exact dropWhile_cons_false _ (not_wsB_of_alnumB (hs x (List.mem_cons_self _ _)))
  have e7 : sfx.takeWhile alnumB = sfx := takeWhile_eq_self_of_all hs
  have e8 : sfx.dropWhile alnumB = [] := dropWhile_eq_nil_of_all hs
  unfold matchGeneric
  rw [e0, e1, e2, e3, e4, e5]
  rw [if_neg (by omega), if_neg hD1]
  dsimp only
  rw [if_pos rfl, e6, e7, e8]
  rw [if_pos ⟨h1, h10, by simp⟩]

theorem trim_scan {L D tail : Str} (hL : ∀ x ∈ L, alB x = true)
    (hD : ∀ x ∈ D, digB x = true) (htail : ∀ x ∈ tail, wsB x = false) :
    trim (L ++ (D ++ tail)) = L ++ (D ++ tail) := by
  apply trim_eq_self_of_no_ws
  intro x hx
  rcases List.mem_append.mp hx with h | h
  · exact not_wsB_of_alB (hL x h)
  · rcases List.mem_append.mp h with h | h
    · exact not_wsB_of_digB (hD x h)
    · exact htail x h

/-- Claim C5 (amended): for every scanned string of the device form — two or
more letters followed by digits, then a hyphen, then a single letter and 1–4
digits — whose SKU does not classify as NoScan, the parser accepts and
produces (normalized sku, token = uppercased letter + digits zero-padded
to 4); when the SKU classifies as NoScan it rejects with the NoScan error
(409).  (The original claim said "one or more letters"; the device regex
requires at least two, see the counterexample.) -/
theorem c5_device_form (m : Master) (ns : List Str) (now : Nat)
    {L D ds : Str} {c : Char}
    (hL : ∀ x ∈ L, alB x = true) (hL2 : 2 ≤ L.length)
    (hD : ∀ x ∈ D, digB x = true) (hD1 : D ≠ [])
    (hc : alB c = true) (hds : ∀ x ∈ ds, digB x = true)
    (hds1 : 1 ≤ ds.length) (hds4 : ds.length ≤ 4) :
    (_sku_type m ns (_normalize_sku_for_db (L ++ D)) ≠ NoScanT →
      _parse_barcode m ns now (L ++ (D ++ ('-' :: c :: ds)))
        = .ok (_normalize_sku_for_db (L ++ D), upChar c :: zfill 4 ds)) ∧
    (_sku_type m ns (_normalize_sku_for_db (L ++ D)) = NoScanT →
      _parse_barcode m ns now (L ++ (D ++ ('-' :: c :: ds)))
        = .error (noscanMsg, 409)) := by
  have htr : trim (L ++ (D ++ ('-' :: c :: ds))) = L ++ (D ++ ('-' :: c :: ds)) := by
    apply trim_scan hL hD
    intro x hx
    rcases List.mem_cons.mp hx with rfl | hx2
    · decide
    · rcases List.mem_cons.mp hx2 with rfl | hx3
      · exact not_wsB_of_alB hc
      · exact not_wsB_of_digB (hds x hx3)
  unfold _parse_barcode
  rw [htr, matchPrimary_device hL hL2 hD hD1 hc hds hds1 hds4]
  dsimp only
  constructor
  · intro h
    rw [if_neg h]
  · intro h
    rw [if_pos h]

/-- Claim C5 counterexample: the scan "A1-B1" has the claimed device form
with a single leading letter, its SKU (normalizing to "A0001") does not
classify NoScan under an empty registry, yet the parser rejects it with the
generic invalid-barcode error instead of accepting it: the device regex
requires two or more letters. -/
theorem c5_counterexample :
    _parse_barcode [] [] 0 "A1-B1".data = .error (invalidMsg, 400) ∧
    _sku_type [] [] (_normalize_sku_for_db "A1".data) ≠ NoScanT := by
  constructor
  · rfl
  · decide

/-- Claim C5 witness: a concrete device scan "AT1-b12" is accepted with the
normalized SKU "AT0001" and token "B0012". -/
theorem c5_device_form_witness :
    _parse_barcode [] [] 0 ("AT".data ++ ("1".data ++ ('-' :: 'b' :: "12".data)))
      = .ok (_normalize_sku_for_db ("AT".data ++ "1".data),
             upChar 'b' :: zfill 4 "12".data) :=
  (c5_device_form [] [] 0 (by decide) (by decide) (by decide) (by decide)
    (by decide) (by decide) (by decide) (by decide)).1 (by decide)

/-- Claim C7 counterexample: "AT0001-A001" is a generic-form scan (letters,
digits, a hyphen, and an alphanumeric suffix of length 4) whose SKU
classifies Compulsory, yet the parser accepts it through the device rule and
produces a token instead of rejecting with status 400. -/
theorem c7_counterexample :
    matchGeneric "AT0001-A001".data
      = some ("AT0001".data, some "A001".data) ∧
    _sku_type [("AT0001".data, ⟨"Widget".data, [], "Compulsory".data⟩)] []
      "AT0001".data = CompulsoryT ∧
    _parse_barcode [("AT0001".data, ⟨"Widget".data, [], "Compulsory".data⟩)] [] 0
      "AT0001-A001".data = .ok ("AT0001".data, "A0001".data) := by
  refine ⟨?_, ?_, ?_⟩ <;> rfl

/-- Claim C7 (amended): for every generic-form scan that does not also match
the device form, when its SKU classifies Compulsory or Unknown the parser
rejects with status 400 — with the "compulsory SKU requires device format"
message when a suffix is present, and the "invalid barcode; device format
required" message when the suffix is absent; no token is produced on either
path.  (The original claim covered all generic-form scans, but a scan whose
suffix is letter-then-1–4-digits matches the device rule first and is
accepted with a token, see the counterexample.) -/
theorem c7_generic_compulsory (m : Master) (ns : List Str) (now : Nat)
    {L D : Str}
    (hL : ∀ x ∈ L, alB x = true) (hL2 : 2 ≤ L.length)
    (hD : ∀ x ∈ D, digB x = true) (hD1 : D ≠ [])
    (hCU : _sku_type m ns (_normalize_sku_for_db (L ++ D)) = CompulsoryT ∨
           _sku_type m ns (_normalize_sku_for_db (L ++ D)) = UnknownT) :
    (_parse_barcode m ns now (L ++ (D ++ [])) = .error (genericPrompt, 400)) ∧
    (∀ sfx : Str, (∀ x ∈ sfx, alnumB x = true) → 1 ≤ sfx.length →
      sfx.length ≤ 10 → deviceShapeB sfx = false →
      _parse_barcode m ns now (L ++ (D ++ ('-' :: sfx)))
        = .error (compPrompt, 400)) := by
  have hL1 : L ≠ [] := by intro h; rw [h] at hL2; simp at hL2
  have hNoScan : _sku_type m ns (_normalize_sku_for_db (L ++ D)) ≠ NoScanT := by
    rcases hCU with h | h <;> rw [h] <;> decide
  have hLoose : _sku_type m ns (_normalize_sku_for_db (L ++ D)) ≠ LooseT := by
    rcases hCU with h | h <;> rw [h] <;> decide
  constructor
  · have htr : trim (L ++ (D ++ ([] : Str))) = L ++ (D ++ ([] : Str)) := by
      apply trim_scan hL hD
      intro x hx
      simp at hx
    unfold _parse_barcode
    rw [htr, matchPrimary_bare hL hL1 hD hD1, matchGeneric_bare hL hL2 hD hD1]
    dsimp only
    rw [if_neg hNoScan, if_neg hLoose]
  · intro sfx hs h1 h10 hnd
    have htr : trim (L ++ (D ++ ('-' :: sfx))) = L ++ (D ++ ('-' :: sfx)) := by
      apply trim_scan hL hD
      intro x hx
      rcases List.mem_cons.mp hx with rfl | hx2
      · decide
      · exact not_wsB_of_alnumB (hs x hx2)
    unfold _parse_barcode
    rw [htr, matchPrimary_suffix_not_device hL hL1 hD hD1 hs h1 hnd,
      matchGeneric_suffix hL hL2 hD hD1 hs h1 h10]
    dsimp only
    rw [if_neg hNoScan, if_neg hLoose]
    rw [if_pos (by intro h; rw [h] at h1; simp at h1)]

/-- Claim C7 witness: under a registry where AT0001 is Compulsory, the bare
scan "AT0001" is rejected with the device-format-required message, and
"AT0001-ABC123" (a generic suffix that is not device-shaped) is rejected
with the compulsory-requires-device-format message, both status 400. -/
theorem c7_generic_compulsory_witness :
    _parse_barcode [("AT0001".data, ⟨"Widget".data, [], "Compulsory".data⟩)] [] 0
      ("AT".data ++ ("0001".data ++ ([] : Str))) = .error (genericPrompt, 400) ∧
    _parse_barcode [("AT0001".data, ⟨"Widget".data, [], "Compulsory".data⟩)] [] 0
      ("AT".data ++ ("0001".data ++ ('-' :: "ABC123".data)))
      = .error (compPrompt, 400) :=
  ⟨(c7_generic_compulsory _ [] 0 (by decide) (by decide) (by decide) (by decide)
      (Or.inl (by decide))).1,
   (c7_generic_compulsory _ [] 0 (by decide) (by decide) (by decide) (by decide)
      (Or.inl (by decide))).2 "ABC123".data (by decide) (by decide) (by decide)
      (by decide)⟩

-- ---------------------------------------------------------------
-- claim C9: the registry loader raises on its own documented format
-- ---------------------------------------------------------------

/-- Claim C9 (code bug): the engine is claimed never to raise for any
registry file contents, and the loader's docstring says it supports the
3-column format, but on a 3-column row such as "AT0001,Widget,Compulsory"
the else-branch of the loader evaluates parts[3] and raises IndexError
(modelled as the error result), which propagates out of assign_barcode. -/
theorem c9_loader_crashes :
    loadSkuMasterRows [["AT0001".data, "Widget".data, "Compulsory".data]]
      = .error "IndexError: list index out of range".data := rfl

-- ---------------------------------------------------------------
-- claim C4: ingest idempotence
-- ---------------------------------------------------------------

theorem norm_key_ignores_now (m : Master) (now now' : Str) (src src' : Option Str)
    (r : RawLine) :
    _norm_key m (mkNewRow m now src r) = _norm_key m (mkNewRow m now' src' r) := rfl

theorem norm_key_ignores_row_id (m : Master) (r : Row) (x : Str) :
    _norm_key m { r with row_id := x } = _norm_key m r := rfl

theorem upsertAux_existing_mono (m : Master) (now : Str) (src : Option Str) :
    ∀ (rows : List RawLine) (existing : List Str) (acc : List Row) (added : Nat),
      existing ⊆ (upsertAux m now src rows existing acc added).2.2 := by
  intro rows
  induction rows with
  | nil => intro existing acc added; exact List.Subset.refl _
  | cons r rest ih =>
    intro existing acc added
    unfold upsertAux
    by_cases h : _norm_key m (mkNewRow m now src r) ∈ existing
    · rw [if_pos h]
      exact ih existing acc added
    · rw [if_neg h]
      intro x hx
      exact ih _ _ _ (List.mem_cons_of_mem _ hx)

theorem upsertAux_key_mem (m : Master) (now : Str) (src : Option Str) :
    ∀ (rows : List RawLine) (existing : List Str) (acc : List Row) (added : Nat)
      (r : RawLine), r ∈ rows →
      _norm_key m (mkNewRow m now src r) ∈ (upsertAux m now src rows existing acc added).2.2 := by
  intro rows
  induction rows with
  | nil => intro existing acc added r hr; simp at hr
  | cons q rest ih =>
    intro existing acc added r hr
    unfold upsertAux
    rcases List.mem_cons.mp hr with rfl | hr2
    · by_cases h : _norm_key m (mkNewRow m now src r) ∈ existing
      · rw [if_pos h]
        exact upsertAux_existing_mono m now src rest existing acc added h
      · rw [if_neg h]
        exact upsertAux_existing_mono m now src rest _ _ _ (List.mem_cons_self _ _)
    · by_cases h : _norm_key m (mkNewRow m now src q) ∈ existing
      · rw [if_pos h]
        exact ih existing acc added r hr2
      · rw [if_neg h]
        exact ih _ _ _ r hr2

theorem upsertAux_inv (m : Master) (now : Str) (src : Option Str) :
    ∀ (rows : List RawLine) (existing : List Str) (acc : List Row) (added : Nat),
      existing ⊆ acc.map (_norm_key m) →
      (upsertAux m now src rows existing acc added).2.2 ⊆
        ((upsertAux m now src rows existing acc added).2.1).map (_norm_key m) := by
  intro rows
  induction rows with
  | nil => intro existing acc added hinv; exact hinv
  | cons r rest ih =>
    intro existing acc added hinv
    unfold upsertAux
    by_cases h : _norm_key m (mkNewRow m now src r) ∈ existing
    · rw [if_pos h]
      exact ih existing acc added hinv
    · rw [if_neg h]
      apply ih
      intro x hx
      rcases List.mem_cons.mp hx with rfl | hx2
      · rw [List.map_append]
        apply List.mem_append.mpr
        right
        simp only [List.map_cons, List.map_nil]
        rw [norm_key_ignores_row_id]
        exact List.mem_cons_self _ _
      · rw [List.map_append]
        exact List.mem_append.mpr (Or.inl (hinv hx2))

theorem upsertAux_skip_all (m : Master) (now : Str) (src : Option Str) :
    ∀ (rows : List RawLine) (existing : List Str) (acc : List Row) (added : Nat),
      (∀ r ∈ rows, _norm_key m (mkNewRow m now src r) ∈ existing) →
      upsertAux m now src rows existing acc added = (added, acc, existing) := by
  intro rows
  induction rows with
  | nil => intro existing acc added _; rfl
  | cons r rest ih =>
    intro existing acc added hall
    unfold upsertAux
    rw [if_pos (hall r (List.mem_cons_self _ _))]
    exact ih existing acc added (fun q hq => hall q (List.mem_cons_of_mem _ hq))

theorem upsertAux_added_mono (m : Master) (now : Str) (src : Option Str) :
    ∀ (rows : List RawLine) (existing : List Str) (acc : List Row) (added : Nat),
      added ≤ (upsertAux m now src rows existing acc added).1 := by
  intro rows
  induction rows with
  | nil => intro _ _ added; exact Nat.le_refl _
  | cons r rest ih =>
    intro existing acc added
    unfold upsertAux
    by_cases h : _norm_key m (mkNewRow m now src r) ∈ existing
    · rw [if_pos h]; exact ih _ _ _
    · rw [if_neg h]
      exact Nat.le_trans (Nat.le_succ _) (ih _ _ _)

theorem upsertAux_acc_of_added (m : Master) (now : Str) (src : Option Str) :
    ∀ (rows : List RawLine) (existing : List Str) (acc : List Row) (added : Nat),
      (upsertAux m now src rows existing acc added).1 = added →
      (upsertAux m now src rows existing acc added).2.1 = acc := by
  intro rows
  induction rows with
  | nil => intro _ _ _ _; rfl
  | cons r rest ih =>
    intro existing acc added h
    unfold upsertAux at h ⊢
    by_cases hm : _norm_key m (mkNewRow m now src r) ∈ existing
    · rw [if_pos hm] at h ⊢
      exact ih _ _ _ h
    · rw [if_neg hm] at h ⊢
      have := upsertAux_added_mono m now src rest
        (_norm_key m (mkNewRow m now src r) :: existing)
        (acc ++ [{ mkNewRow m now src r with
          row_id := rowIdOf (_norm_key m (mkNewRow m now src r)) now }]) (added + 1)
      omega

/-- Claim C4: ingest is idempotent — running `upsert_orders` a second time
with the same input rows (at any later timestamp and source) inserts 0 rows,
because every input line's dedup key, a deterministic function of
(awb upper, canonical name lower, normalized sku, quantity string), is
already present in the store snapshot left by the first call. -/
theorem c4_ingest_idempotent (m : Master) (now now' : Str) (src src' : Option Str)
    (rows : List RawLine) (db : List Row) :
    (upsert_orders m now' src' rows (upsert_orders m now src rows db).2).1 = 0 := by
  by_cases hr : rows = []
  · subst hr
    unfold upsert_orders
    rw [if_pos rfl]
  · unfold upsert_orders
    rw [if_neg hr, if_neg hr]
    have hkeys : ∀ r ∈ rows, _norm_key m (mkNewRow m now' src' r) ∈
        ((if 0 < (upsertAux m now src rows (db.map (_norm_key m)) db 0).1 then
          (upsertAux m now src rows (db.map (_norm_key m)) db 0).2.1
        else db).map (_norm_key m)) := by
      intro r hrm
      have h1 : _norm_key m (mkNewRow m now src r) ∈
          (upsertAux m now src rows (db.map (_norm_key m)) db 0).2.2 :=
        upsertAux_key_mem m now src rows _ _ _ r hrm
      have h2 : (upsertAux m now src rows (db.map (_norm_key m)) db 0).2.2 ⊆
          ((upsertAux m now src rows (db.map (_norm_key m)) db 0).2.1).map (_norm_key m) :=
        upsertAux_inv m now src rows _ _ _ (fun x hx => hx)
      by_cases ha : 0 < (upsertAux m now src rows (db.map (_norm_key m)) db 0).1
      · rw [if_pos ha]
        rw [norm_key_ignores_now m now' now src' src r]
        exact h2 h1
      · rw [if_neg ha]
        have hz : (upsertAux m now src rows (db.map (_norm_key m)) db 0).1 = 0 := by omega
        have hacc := upsertAux_acc_of_added m now src rows (db.map (_norm_key m)) db 0 hz
        rw [norm_key_ignores_now m now' now src' src r]
        rw [← hacc]
        exact h2 h1
    rw [upsertAux_skip_all m now' src' rows _ _ 0 hkeys]

-- ---------------------------------------------------------------
-- token cleanliness: every token the grammar emits is a fixpoint of the
-- strip/uppercase normalization applied by `_pid_list` on read
-- ---------------------------------------------------------------

theorem dropWhile_idem {p : Char → Bool} {l : Str} :
    (l.dropWhile p).dropWhile p = l.dropWhile p := by
  cases hd : l.dropWhile p with
  | nil => rfl
  | cons x xs => exact dropWhile_cons_false _ (dropWhile_head_false hd)

theorem trim_twosided (s : Str) : (trim s).dropWhile wsB = trim s := by
  unfold trim
  cases hx : ((s.dropWhile wsB).reverse.dropWhile wsB).reverse with
  | nil => rfl
  | cons z t =>
    have hsp := List.takeWhile_append_dropWhile wsB (s.dropWhile wsB).reverse
    have hB : s.dropWhile wsB = z :: (t ++ ((s.dropWhile wsB).reverse.takeWhile wsB).reverse) := by
      conv_lhs => rw [← List.reverse_reverse (s.dropWhile wsB), ← hsp]
      rw [List.reverse_append, hx]
      simp
    have hz : wsB z = false := dropWhile_head_false hB
    exact dropWhile_cons_false _ hz

theorem trim_idem (s : Str) : trim (trim s) = trim s := by
  show (((trim s).dropWhile wsB).reverse.dropWhile wsB).reverse = trim s
  rw [trim_twosided]
  have h2 : (trim s).reverse.dropWhile wsB = (trim s).reverse := by
    unfold trim
    rw [List.reverse_reverse]
    exact dropWhile_idem
  rw [h2, List.reverse_reverse]

theorem natDigitsCore_digits :
    ∀ (fuel n : Nat), ∀ c ∈ natDigitsCore fuel n, digB c = true := by
  intro fuel
  induction fuel with
  | zero => intro n c hc; simp [natDigitsCore] at hc
  | succ f ih =>
    intro n c hc
    unfold natDigitsCore at hc
    by_cases h : n < 10
    · rw [if_pos h] at hc
      rcases List.mem_cons.mp hc with rfl | hc2
      · rw [digB_toNat, char_toNat_ofNat (by omega)]
        omega
      · simp at hc2
    · rw [if_neg h] at hc
      rcases List.mem_append.mp hc with hc2 | hc2
      · exact ih _ c hc2
      · rcases List.mem_cons.mp hc2 with rfl | hc3
        · have hm : n % 10 < 10 := Nat.mod_lt _ (by omega)
          rw [digB_toNat, char_toNat_ofNat (by omega)]
          omega
        · simp at hc3

theorem natDigits_digits (n : Nat) : ∀ c ∈ natDigits n, digB c = true :=
  natDigitsCore_digits (n + 1) n

theorem zfill_digits {k : Nat} {s : Str} (h : ∀ c ∈ s, digB c = true) :
    ∀ c ∈ zfill k s, digB c = true := by
  intro c hc
  unfold zfill at hc
  by_cases hk : k ≤ s.length
  · rw [if_pos hk] at hc
    exact h c hc
  · rw [if_neg hk] at hc
    rcases List.mem_append.mp hc with hc2 | hc2
    · have := List.eq_of_mem_replicate hc2
      subst this
      decide
    · exact h c hc2

theorem pidClean_of_no_ws_upper {t : Str} (h1 : t ≠ [])
    (h2 : ∀ c ∈ t, wsB c = false) (h3 : ∀ c ∈ t, upChar c = c) : pidClean t := by
  refine ⟨h1, trim_eq_self_of_no_ws h2, ?_⟩
  unfold upper
  conv_rhs => rw [← List.map_id t]
  exact List.map_congr_left h3

theorem pidClean_upper_trim {tk : Str} (h : trim tk ≠ []) :
    pidClean (upper (trim tk)) := by
  refine ⟨?_, ?_, upper_upper (trim tk)⟩
  · intro hcon
    exact h (List.map_eq_nil_iff.mp hcon)
  · rw [upper_trim]
    exact trim_idem _

theorem matchPrimary_inv {s a : Str} {c : Char} {ds : Str}
    (h : matchPrimary s = some (a, c, ds)) :
    alB c = true ∧ ∀ x ∈ ds, digB x = true := by
  unfold matchPrimary at h
  split at h
  · exact Option.noConfusion h
  split at h
  · exact Option.noConfusion h
  split at h
  · exact Option.noConfusion h
  split at h
  case isTrue c0 r2 hc0 =>
    split at h
    · exact Option.noConfusion h
    case h_2 c1 r4 =>
      split at h
      case isTrue hc1 =>
        split at h
        · rcases Option.some.inj h with ⟨rfl, rfl, rfl⟩
          exact ⟨hc1, fun x hx => List.mem_takeWhile_imp hx⟩
        · exact Option.noConfusion h
      · exact Option.noConfusion h
  · exact Option.noConfusion h

theorem matchGeneric_inv_suffix {s a tk : Str}
    (h : matchGeneric s = some (a, some tk)) : ∀ x ∈ tk, alnumB x = true := by
  unfold matchGeneric at h
  split at h
  · exact Option.noConfusion h
  split at h
  · exact Option.noConfusion h
  split at h
  · simp at h
  · split at h
    · split at h
      · simp only [Option.some.injEq, Prod.mk.injEq] at h
        obtain ⟨h1, h2⟩ := h
        subst h2
        exact fun x hx => List.mem_takeWhile_imp hx
      · exact Option.noConfusion h
    · exact Option.noConfusion h

/-- Every token produced by the grammar is non-empty and fixed under the
strip/uppercase read normalization. -/
theorem parse_pid_clean {m : Master} {ns : List Str} {now : Nat} {code sku4 pid : Str}
    (h : _parse_barcode m ns now code = .ok (sku4, pid)) : pidClean pid := by
  unfold _parse_barcode at h
  cases hp : matchPrimary (trim code) with
  | some v =>
    obtain ⟨skuRaw, letter, ds⟩ := v
    rw [hp] at h
    dsimp only at h
    split at h
    · exact Except.noConfusion h
    · rcases Except.ok.inj h with ⟨rfl, rfl⟩
      obtain ⟨hl, hds⟩ := matchPrimary_inv hp
      apply pidClean_of_no_ws_upper (by simp)
      · intro x hx
        rcases List.mem_cons.mp hx with rfl | hx2
        · have := upAl_upChar_of_alB hl
          exact not_wsB_of_alnumB (by simp [alnumB, alB, this])
        · exact not_wsB_of_digB (zfill_digits hds x hx2)
      · intro x hx
        rcases List.mem_cons.mp hx with rfl | hx2
        · exact upChar_idem letter
        · exact upChar_of_digB (zfill_digits hds x hx2)
  | none =>
    rw [hp] at h
    dsimp only at h
    cases hg : matchGeneric (trim code) with
    | some v =>
      obtain ⟨skuRaw, tokOpt⟩ := v
      rw [hg] at h
      dsimp only at h
      split at h
      · exact Except.noConfusion h
      split at h
      · -- Loose branch
        cases tokOpt with
        | some tk =>
          dsimp only at h
          split at h
          case isTrue htk =>
            rcases Except.ok.inj h with ⟨rfl, rfl⟩
            exact pidClean_upper_trim htk
          case isFalse htk =>
            rcases Except.ok.inj h with ⟨rfl, rfl⟩
            apply pidClean_of_no_ws_upper (by simp [autoTok])
            · intro x hx
              unfold autoTok at hx
              rcases List.mem_cons.mp hx with rfl | hx2
              · decide
              · exact not_wsB_of_digB (zfill_digits (natDigits_digits _) x hx2)
            · intro x hx
              unfold autoTok at hx
              rcases List.mem_cons.mp hx with rfl | hx2
              · decide
              · exact upChar_of_digB (zfill_digits (natDigits_digits _) x hx2)
        | none =>
          dsimp only at h
          rcases Except.ok.inj h with ⟨rfl, rfl⟩
          apply pidClean_of_no_ws_upper (by simp [autoTok])
          · intro x hx
            unfold autoTok at hx
            rcases List.mem_cons.mp hx with rfl | hx2
            · decide
            · exact not_wsB_of_digB (zfill_digits (natDigits_digits _) x hx2)
          · intro x hx
            unfold autoTok at hx
            rcases List.mem_cons.mp hx with rfl | hx2
            · decide
            · exact upChar_of_digB (zfill_digits (natDigits_digits _) x hx2)
      · -- Compulsory / Unknown branch: both outcomes are errors
        split at h
        · split at h
          · exact Except.noConfusion h
          · exact Except.noConfusion h
        · exact Except.noConfusion h
    | none =>
      rw [hg] at h
      exact Except.noConfusion h

-- ---------------------------------------------------------------
-- `_pid_list` algebra
-- ---------------------------------------------------------------

theorem pid_list_append (a b : List Str) :
    _pid_list (a ++ b) = _pid_list a ++ _pid_list b := by
  unfold _pid_list
  exact List.filterMap_append a b _

theorem pid_list_singleton_clean {pid : Str} (h : pidClean pid) :
    _pid_list [pid] = [pid] := by
  unfold _pid_list
  simp only [List.filterMap_cons, List.filterMap_nil]
  rw [h.2.1, if_neg h.1, h.2.2]

theorem mem_pid_list_clean {cell : List Str} {u : Str} (h : u ∈ _pid_list cell) :
    pidClean u := by
  unfold _pid_list at h
  rcases List.mem_filterMap.mp h with ⟨t, _, ht⟩
  by_cases he : trim t = []
  · rw [if_pos he] at ht
    exact Option.noConfusion ht
  · rw [if_neg he] at ht
    rcases Option.some.inj ht with rfl
    exact pidClean_upper_trim he

theorem pid_list_of_clean {l : List Str} (h : ∀ u ∈ l, pidClean u) :
    _pid_list l = l := by
  induction l with
  | nil => rfl
  | cons a t ih =>
    have ha := h a (List.mem_cons_self _ _)
    unfold _pid_list
    simp only [List.filterMap_cons]
    rw [ha.2.1, if_neg ha.1, ha.2.2]
    have := ih (fun u hu => h u (List.mem_cons_of_mem _ hu))
    unfold _pid_list at this
    rw [this]

theorem pid_list_idem (cell : List Str) :
    _pid_list (_pid_list cell) = _pid_list cell :=
  pid_list_of_clean (fun _ hu => mem_pid_list_clean hu)

/-- Reading back the cell written by the engine's append. -/
theorem pid_list_set {cell : List Str} {pid : Str} (h : pidClean pid) :
    _pid_list (_pid_list cell ++ [pid]) = _pid_list cell ++ [pid] := by
  rw [pid_list_append, pid_list_idem, pid_list_singleton_clean h]

-- ---------------------------------------------------------------
-- `_product_id_exists_anywhere`
-- ---------------------------------------------------------------

theorem exists_anywhere_false {pid : Str} {rows : List Row} (hc : pidClean pid)
    (h : _product_id_exists_anywhere pid rows = false) :
    ∀ r ∈ rows, pid ∉ _pid_list r.product_id := by
  unfold _product_id_exists_anywhere at h
  rw [hc.2.1, hc.2.2, if_neg hc.1] at h
  intro r hr hmem
  have := List.any_eq_false.mp h r hr
  rw [decide_eq_true_eq] at this
  exact this hmem

theorem exists_anywhere_not {pid : Str} {rows : List Row} (hc : pidClean pid)
    (h : ¬ _product_id_exists_anywhere pid rows = true) :
    ∀ r ∈ rows, pid ∉ _pid_list r.product_id := by
  apply exists_anywhere_false hc
  revert h
  cases _product_id_exists_anywhere pid rows <;> simp

-- ---------------------------------------------------------------
-- candidates and target selection
-- ---------------------------------------------------------------

theorem candPred_iff {sku4 : Str} {r : Row} :
    candPred sku4 r = true ↔
      (_normalize_sku_for_db r.sku = sku4 ∧ 0 < _row_remaining_units r) := by
  unfold candPred
  rw [Bool.and_eq_true, beq_iff_eq, decide_eq_true_eq]

theorem enumFilter_mem {p : Row → Bool} :
    ∀ {k : Nat} {rows : List Row} {i : Nat} {r : Row},
      (i, r) ∈ enumFilter p k rows →
      p r = true ∧ k ≤ i ∧ rows.get? (i - k) = some r := by
  intro k rows
  induction rows generalizing k with
  | nil => intro i r h; simp [enumFilter] at h
  | cons a t ih =>
    intro i r h
    unfold enumFilter at h
    by_cases hp : p a = true
    · rw [if_pos hp] at h
      rcases List.mem_cons.mp h with heq | h2
      · rcases Prod.mk.inj heq with ⟨rfl, rfl⟩
        exact ⟨hp, Nat.le_refl _, by simp⟩
      · obtain ⟨h3, h4, h5⟩ := ih h2
        refine ⟨h3, by omega, ?_⟩
        have : i - k = (i - (k + 1)) + 1 := by omega
        rw [this]
        simpa using h5
    · rw [if_neg hp] at h
      obtain ⟨h3, h4, h5⟩ := ih h
      refine ⟨h3, by omega, ?_⟩
      have : i - k = (i - (k + 1)) + 1 := by omega
      rw [this]
      simpa using h5

theorem enumFilter_mem0 {p : Row → Bool} {rows : List Row} {i : Nat} {r : Row}
    (h : (i, r) ∈ enumFilter p 0 rows) : p r = true ∧ rows.get? i = some r := by
  obtain ⟨h1, _, h3⟩ := enumFilter_mem h
  rw [Nat.sub_zero] at h3
  exact ⟨h1, h3⟩

theorem candidatesOf_sub {rows : List Row} {sku4 : Str} {aw : Option Str}
    {t : Nat × Row} (h : t ∈ candidatesOf rows sku4 aw) :
    t ∈ enumFilter (candPred sku4) 0 rows := by
  unfold candidatesOf at h
  cases aw with
  | none => exact h
  | some a =>
    dsimp only at h
    by_cases he : a = []
    · rw [if_pos he] at h; exact h
    · rw [if_neg he] at h; exact List.mem_of_mem_filter h

theorem targetOf_mem {rows : List Row} {cand : List (Nat × Row)} {t : Nat × Row}
    (h : targetOf rows cand = some t) : t ∈ cand := by
  unfold targetOf at h
  cases cand with
  | nil => exact Option.noConfusion h
  | cons c0 rest =>
    dsimp only at h
    cases hf : (c0 :: rest).filter (fastPathB rows) with
    | nil =>
      rw [hf] at h
      have heq : c0 = t := Option.some.inj h
      subst heq
      exact List.mem_cons_self _ _
    | cons s0 srest =>
      rw [hf] at h
      have heq : s0 = t := Option.some.inj h
      subst heq
      have hmem : s0 ∈ (c0 :: rest).filter (fastPathB rows) := by
        rw [hf]; exact List.mem_cons_self _ _
      exact List.mem_of_mem_filter hmem

theorem find?_eq_filter_head {α : Type} (p : α → Bool) (l : List α) :
    l.find? p = (l.filter p).head? := by
  induction l with
  | nil => rfl
  | cons a t ih =>
    by_cases hp : p a = true
    · rw [List.find?_cons_of_pos _ hp, List.filter_cons_of_pos hp]
      rfl
    · have hp' : ¬ p a = true := hp
      rw [List.find?_cons_of_neg _ hp', List.filter_cons_of_neg hp', ih]

theorem targetOf_of_find_some {rows : List Row} {cand : List (Nat × Row)}
    {c : Nat × Row} (hne : cand ≠ [])
    (h : cand.find? (fastPathB rows) = some c) : targetOf rows cand = some c := by
  obtain ⟨c0, rest, rfl⟩ := List.exists_cons_of_ne_nil hne
  unfold targetOf
  dsimp only
  rw [find?_eq_filter_head] at h
  cases hf : (c0 :: rest).filter (fastPathB rows) with
  | nil => rw [hf] at h; exact Option.noConfusion h
  | cons s0 srest =>
    rw [hf] at h
    rcases Option.some.inj h with rfl
    rfl

theorem targetOf_of_find_none {rows : List Row} {c0 : Nat × Row}
    {rest : List (Nat × Row)}
    (h : (c0 :: rest).find? (fastPathB rows) = none) :
    targetOf rows (c0 :: rest) = some c0 := by
  unfold targetOf
  dsimp only
  rw [find?_eq_filter_head] at h
  cases hf : (c0 :: rest).filter (fastPathB rows) with
  | nil => rfl
  | cons s0 srest => rw [hf] at h; exact Option.noConfusion h

-- ---------------------------------------------------------------
-- get?/set helpers
-- ---------------------------------------------------------------

theorem get?_set_self {α : Type} : ∀ (l : List α) (i : Nat) (a : α),
    i < l.length → (l.set i a).get? i = some a := by
  intro l
  induction l with
  | nil => intro i a h; simp at h
  | cons x t ih =>
    intro i a h
    cases i with
    | zero => rfl
    | succ j =>
      simp only [List.set_cons_succ, List.get?_cons_succ]
      exact ih j a (by simpa using h)

theorem get?_set_other {α : Type} : ∀ (l : List α) (i j : Nat) (a : α),
    i ≠ j → (l.set i a).get? j = l.get? j := by
  intro l
  induction l with
  | nil => intro i j a _; simp
  | cons x t ih =>
    intro i j a hij
    cases i with
    | zero =>
      cases j with
      | zero => exact absurd rfl hij
      | succ k => rfl
    | succ i' =>
      cases j with
      | zero => rfl
      | succ k =>
        simp only [List.set_cons_succ, List.get?_cons_succ]
        exact ih i' k a (by omega)

-- ---------------------------------------------------------------
-- structural case analysis of `assign_barcode`
-- ---------------------------------------------------------------

theorem assign_barcode_cases (m : Master) (ns : List Str) (now : Nat)
    (rows : List Row) (bc : Str) (aw : Option Str) :
    ((assign_barcode m ns now rows bc aw).2 = rows ∧
      ∃ msg st, (assign_barcode m ns now rows bc aw).1 = .err msg st) ∨
    (∃ sku4 pid i r,
      _parse_barcode m ns now (upper bc) = .ok (sku4, pid) ∧
      ¬ ((_sku_type m ns sku4 = CompulsoryT ∨ _sku_type m ns sku4 = UnknownT) ∧
          _product_id_exists_anywhere pid rows = true) ∧
      rows.get? i = some r ∧ candPred sku4 r = true ∧
      (∃ p, (assign_barcode m ns now rows bc aw).1 = .okA p) ∧
      (assign_barcode m ns now rows bc aw).2
        = rows.set i { r with product_id := _pid_list r.product_id ++ [pid] }) := by
  unfold assign_barcode
  cases hp : _parse_barcode m ns now (upper bc) with
  | error e =>
    left
    exact ⟨rfl, e.1, e.2, rfl⟩
  | ok v =>
    obtain ⟨sku4, pid⟩ := v
    dsimp only
    by_cases hdup : (_sku_type m ns sku4 = CompulsoryT ∨ _sku_type m ns sku4 = UnknownT) ∧
        _product_id_exists_anywhere pid rows = true
    · rw [if_pos hdup]
      left
      exact ⟨rfl, _, _, rfl⟩
    · rw [if_neg hdup]
      cases ht : targetOf rows (candidatesOf rows sku4 aw) with
      | none =>
        left
        exact ⟨rfl, _, _, rfl⟩
      | some t =>
        right
        obtain ⟨hcp, hget⟩ := enumFilter_mem0 (candidatesOf_sub (targetOf_mem ht))
        exact ⟨sku4, pid, t.1, t.2, rfl, hdup, hget, hcp, ⟨_, rfl⟩, rfl⟩

-- ---------------------------------------------------------------
-- claim C3: capacity
-- ---------------------------------------------------------------

theorem row_qty_update (r : Row) (cell : List Str) :
    _row_qty { r with product_id := cell } = _row_qty r := rfl

theorem done_lt_qty_of_remaining {r : Row} (h : 0 < _row_remaining_units r) :
    (_row_done_units r : Int) < _row_qty r := by
  unfold _row_remaining_units at h
  rcases lt_max_iff.mp h with h2 | h2
  · omega
  · omega

/-- Claim C3 (amended): allocate preserves done ≤ quantity on every line —
the candidate filter only admits lines with remaining units, so the append
can never push done past quantity — and a scan for a SKU with no
remaining-capacity line is rejected NoCandidate (404) with the store
untouched, never clamped.  (The original claim extended the invariant to the
legacy bulk assign and the manual confirm, which both violate it: they set a
token on rows regardless of quantity, e.g. on a quantity-0 row — see the
counterexample.) -/
theorem c3_capacity (m : Master) (ns : List Str) (now : Nat) (rows : List Row)
    (bc : Str) (aw : Option Str) (hcap : capacityOK rows) :
    capacityOK ((assign_barcode m ns now rows bc aw).2) ∧
    (∀ sku4 pid, _parse_barcode m ns now (upper bc) = .ok (sku4, pid) →
      ¬ ((_sku_type m ns sku4 = CompulsoryT ∨ _sku_type m ns sku4 = UnknownT) ∧
          _product_id_exists_anywhere pid rows = true) →
      candidatesOf rows sku4 aw = [] →
      assign_barcode m ns now rows bc aw = (.err (noUnitMsg sku4 aw) 404, rows)) := by
  constructor
  · rcases assign_barcode_cases m ns now rows bc aw with ⟨h1, _⟩ |
      ⟨sku4, pid, i, r, hp, hnd, hget, hcp, _, hset⟩
    · rw [h1]; exact hcap
    · rw [hset]
      intro r' hr'
      rcases List.mem_or_eq_of_mem_set hr' with hmem | rfl
      · exact hcap r' hmem
      · have hclean := parse_pid_clean hp
        have hlt := done_lt_qty_of_remaining (candPred_iff.mp hcp).2
        have hdone : _row_done_units { r with product_id := _pid_list r.product_id ++ [pid] }
            = _row_done_units r + 1 := by
          unfold _row_done_units
          rw [pid_list_set hclean]
          simp
        rw [hdone, row_qty_update]
        push_cast
        omega
  · intro sku4 pid hp hnd hcand
    unfold assign_barcode
    rw [hp]
    dsimp only
    rw [if_neg hnd, hcand]
    rfl

/-- Claim C3 counterexample: the legacy bulk assign sets a token on a
quantity-0 row instead of rejecting: afterwards done = 1 > 0 = quantity, so
the invariant is violated by a mutation that was not rejected. -/
theorem c3_counterexample :
    ((assign_product_id
        [{ order_date := [], order_id := [], customer_name := [],
           contact_number := "7".data, product_name := [], sku := "AT0001".data,
           quantity := "0".data, awb := "AWB9".data, product_id := [],
           row_id := "r1".data, created_at := [], source_file := [],
           page_index := [] }] "AWB9".data "T001".data).1.1 = true) ∧
    ((match (assign_product_id
        [{ order_date := [], order_id := [], customer_name := [],
           contact_number := "7".data, product_name := [], sku := "AT0001".data,
           quantity := "0".data, awb := "AWB9".data, product_id := [],
           row_id := "r1".data, created_at := [], source_file := [],
           page_index := [] }] "AWB9".data "T001".data).2.get? 0 with
      | some r => decide (_row_qty r < (_row_done_units r : Int))
      | none => false) = true) := by
  constructor
  · rfl
  · rfl

/-- Claim C3 witness: on a one-line store with quantity 2 and one token
already scanned, capacity still holds after an allocate call, and a scan of
a SKU with no candidates is rejected 404 leaving the store unchanged. -/
theorem c3_capacity_witness :
    capacityOK ((assign_barcode [] [] 0
      [{ order_date := [], order_id := [], customer_name := [],
         contact_number := "7".data, product_name := [], sku := "AT0001".data,
         quantity := "2".data, awb := "AWB9".data, product_id := ["A0001".data],
         row_id := "r1".data, created_at := [], source_file := [],
         page_index := [] }] "AT0001-A002".data none).2) :=
  (c3_capacity [] [] 0 _ "AT0001-A002".data none (by unfold capacityOK; decide)).1

-- ---------------------------------------------------------------
-- claim C2: token uniqueness for Compulsory/Unknown lines
-- ---------------------------------------------------------------

/-- Claim C2 (amended): within allocate, a Compulsory/Unknown scan whose
token already appears in any line's tokens store-wide is rejected
DuplicateToken (409) with the store untouched, Loose tokens being exempt;
and across the lines whose stored SKU is normalized (as every ingested line
is), allocate preserves the invariant that no token appears in the tokens of
two different lines that both classify Compulsory/Unknown.  (The original
claim asserted the invariant for every operation sequence, but the legacy
bulk assign writes one token onto every line of an AWB and the manual
confirm stamps the same sentinel on any eligible line, both violating it —
see the counterexample.) -/
theorem c2_uniqueness (m : Master) (ns : List Str) (now : Nat) (rows : List Row)
    (bc : Str) (aw : Option Str) (hWF : storeWF rows) (hU : uniqueCU m ns rows) :
    uniqueCU m ns ((assign_barcode m ns now rows bc aw).2) ∧
    (∀ sku4 pid, _parse_barcode m ns now (upper bc) = .ok (sku4, pid) →
      (_sku_type m ns sku4 = CompulsoryT ∨ _sku_type m ns sku4 = UnknownT) →
      _product_id_exists_anywhere pid rows = true →
      assign_barcode m ns now rows bc aw = (.err (dupMsg pid) 409, rows)) := by
  constructor
  · rcases assign_barcode_cases m ns now rows bc aw with ⟨h1, _⟩ |
      ⟨sku4, pid, i, r, hp, hnd, hget, hcp, _, hset⟩
    · rw [h1]; exact hU
    · rw [hset]
      have hclean := parse_pid_clean hp
      have hpidlist : _pid_list ({ r with product_id := _pid_list r.product_id ++ [pid] }).product_id
          = _pid_list r.product_id ++ [pid] := pid_list_set hclean
      have hlen : i < rows.length := (List.get?_eq_some.mp hget).1
      have hrsku : r.sku = sku4 := by
        have h1 := (candPred_iff.mp hcp).1
        have h2 := hWF r (List.get?_mem hget)
        exact h2.symm.trans h1
      by_cases hCU : _sku_type m ns sku4 = CompulsoryT ∨ _sku_type m ns sku4 = UnknownT
      · have hex : ∀ r' ∈ rows, pid ∉ _pid_list r'.product_id :=
          exists_anywhere_not hclean (fun hex => hnd ⟨hCU, hex⟩)
        intro i' j' ri rj hne hgi hgj hCUi hCUj t ht
        by_cases hi : i' = i
        · subst hi
          rw [get?_set_self _ _ _ hlen] at hgi
          have hri : { r with product_id := _pid_list r.product_id ++ [pid] } = ri :=
            Option.some.inj hgi
          subst hri
          rw [get?_set_other rows i' j' _ hne] at hgj
          rw [hpidlist] at ht
          rcases List.mem_append.mp ht with hto | htp
          · exact hU i' j' r rj hne hget hgj hCUi hCUj t hto
          · have hteq : t = pid := by simpa using htp
            subst hteq
            exact hex rj (List.get?_mem hgj)
        · by_cases hj : j' = i
          · subst hj
            rw [get?_set_self _ _ _ hlen] at hgj
            have hrj : { r with product_id := _pid_list r.product_id ++ [pid] } = rj :=
              Option.some.inj hgj
            subst hrj
            rw [get?_set_other rows j' i' _ (fun h => hne h.symm)] at hgi
            rw [hpidlist]
            intro hmem
            rcases List.mem_append.mp hmem with hto | htp
            · exact hU i' j' ri r hne hgi hget hCUi hCUj t ht hto
            · have hteq : t = pid := by simpa using htp
              subst hteq
              exact hex ri (List.get?_mem hgi) ht
          · rw [get?_set_other rows i i' _ (fun h => hi h.symm)] at hgi
            rw [get?_set_other rows i j' _ (fun h => hj h.symm)] at hgj
            exact hU i' j' ri rj hne hgi hgj hCUi hCUj t ht
      · -- the target line is not Compulsory/Unknown, so constrained pairs are untouched
        intro i' j' ri rj hne hgi hgj hCUi hCUj t ht
        by_cases hi : i' = i
        · subst hi
          rw [get?_set_self _ _ _ hlen] at hgi
          have hri : { r with product_id := _pid_list r.product_id ++ [pid] } = ri :=
            Option.some.inj hgi
          subst hri
          have hCUi' : _sku_type m ns r.sku = CompulsoryT ∨
              _sku_type m ns r.sku = UnknownT := hCUi
          rw [hrsku] at hCUi'
          exact absurd hCUi' hCU
        · by_cases hj : j' = i
          · subst hj
            rw [get?_set_self _ _ _ hlen] at hgj
            have hrj : { r with product_id := _pid_list r.product_id ++ [pid] } = rj :=
              Option.some.inj hgj
            subst hrj
            have hCUj' : _sku_type m ns r.sku = CompulsoryT ∨
                _sku_type m ns r.sku = UnknownT := hCUj
            rw [hrsku] at hCUj'
            exact absurd hCUj' hCU
          · rw [get?_set_other rows i i' _ (fun h => hi h.symm)] at hgi
            rw [get?_set_other rows i j' _ (fun h => hj h.symm)] at hgj
            exact hU i' j' ri rj hne hgi hgj hCUi hCUj t ht
  · intro sku4 pid hp hCU hex
    unfold assign_barcode
    rw [hp]
    dsimp only
    rw [if_pos ⟨hCU, hex⟩]

/-- Claim C2 counterexample: the legacy bulk assign stamps the same token
onto both Compulsory lines of an AWB in one successful call, so the token
appears in the tokens of two different Compulsory lines simultaneously. -/
theorem c2_counterexample :
    (assign_product_id c2Rows "AWB1".data "T001".data).1.1 = true ∧
    ¬ uniqueCU c2m [] ((assign_product_id c2Rows "AWB1".data "T001".data).2) := by
  constructor
  · rfl
  · intro h
    exact h 0 1 _ _ (by decide) rfl rfl (Or.inl (by decide)) (Or.inl (by decide))
      "T001".data (by decide) (by decide)

/-- Claim C2 witness: the amended statement instantiated on the empty store,
where both hypotheses hold vacuously. -/
theorem c2_uniqueness_witness :
    uniqueCU c2m [] ((assign_barcode c2m [] 0 [] "AT0001-A001".data none).2) ∧
    (∀ sku4 pid, _parse_barcode c2m [] 0 (upper "AT0001-A001".data) = .ok (sku4, pid) →
      (_sku_type c2m [] sku4 = CompulsoryT ∨ _sku_type c2m [] sku4 = UnknownT) →
      _product_id_exists_anywhere pid [] = true →
      assign_barcode c2m [] 0 [] "AT0001-A001".data none = (.err (dupMsg pid) 409, [])) :=
  c2_uniqueness c2m [] 0 [] "AT0001-A001".data none
    (fun r hr => absurd hr (List.not_mem_nil r))
    (fun i j ri rj _ hgi => by simp at hgi)

-- ---------------------------------------------------------------
-- claim C8: tie-break
-- ---------------------------------------------------------------

/-- Claim C8 (amended): when no lock applies and the candidate set is
non-empty, allocate prefers the first candidate whose contact has exactly
one row with a non-blank SKU in the whole store — NoScan rows count toward
that number, so a NoScan sibling disqualifies its group from the fast path —
and whose quantity is 1; if no candidate qualifies it takes the first in
store order.  (The original claim counted only scannable lines and asserted
a NoScan line does not disqualify the group; the code counts every non-blank
SKU row, see the counterexample.) -/
theorem c8_tie_break (m : Master) (ns : List Str) (now : Nat) (rows : List Row)
    (bc : Str) (aw : Option Str) {sku4 pid : Str}
    (hp : _parse_barcode m ns now (upper bc) = .ok (sku4, pid))
    (hnd : ¬ ((_sku_type m ns sku4 = CompulsoryT ∨ _sku_type m ns sku4 = UnknownT) ∧
        _product_id_exists_anywhere pid rows = true)) :
    (∀ c, (candidatesOf rows sku4 aw).find? (fastPathB rows) = some c →
      (assign_barcode m ns now rows bc aw).2
        = rows.set c.1 { c.2 with product_id := _pid_list c.2.product_id ++ [pid] }) ∧
    (∀ c0 rest, candidatesOf rows sku4 aw = c0 :: rest →
      (candidatesOf rows sku4 aw).find? (fastPathB rows) = none →
      (assign_barcode m ns now rows bc aw).2
        = rows.set c0.1 { c0.2 with product_id := _pid_list c0.2.product_id ++ [pid] }) := by
  constructor
  · intro c hfind
    have hne : candidatesOf rows sku4 aw ≠ [] := by
      intro hnil
      rw [hnil] at hfind
      exact Option.noConfusion hfind
    have hab : assign_barcode m ns now rows bc aw
        = finishAssign m ns rows sku4 pid (_sku_type m ns sku4) c := by
      unfold assign_barcode
      rw [hp]
      dsimp only
      rw [if_neg hnd, targetOf_of_find_some hne hfind]
    rw [hab]
    rfl
  · intro c0 rest hcand hfind
    have hab : assign_barcode m ns now rows bc aw
        = finishAssign m ns rows sku4 pid (_sku_type m ns sku4) c0 := by
      unfold assign_barcode
      rw [hp]
      dsimp only
      rw [if_neg hnd, hcand, targetOf_of_find_none (hcand ▸ hfind)]
    rw [hab]
    rfl

/-- Claim C8 counterexample: group 111 has exactly one scannable line (its
second row is NoScan) of quantity 1 and that line is a candidate, yet
allocate assigns the scan to the first candidate of group 222, because the
code's tie-break counts the NoScan row of group 111 as well. -/
theorem c8_counterexample :
    countScannable c8m c8ns c8Rows "111".data = 1 ∧
    _row_qty c8Row111 = 1 ∧
    (1, c8Row111) ∈ candidatesOf c8Rows "AT0001".data none ∧
    (match (assign_barcode c8m c8ns 0 c8Rows "AT0001-A001".data none).1 with
     | .okA p => p.contact_number
     | .err _ _ => []) = "222".data := by
  refine ⟨by decide, by decide, by decide, by rfl⟩

/-- Claim C8 witness: on the counterexample store no candidate passes the
code's fast-path test, so the first candidate in store order (group 222)
receives the token. -/
theorem c8_tie_break_witness :
    (assign_barcode c8m c8ns 0 c8Rows "AT0001-A001".data none).2
      = c8Rows.set 0 { c8Row222 with
          product_id := _pid_list c8Row222.product_id ++ ["A0001".data] } :=
  (c8_tie_break c8m c8ns 0 c8Rows "AT0001-A001".data none (by rfl)
      (by decide)).2 (0, c8Row222) [(1, c8Row111)] (by decide) (by decide)

-- ---------------------------------------------------------------
-- claim C10: failures leave the store untouched
-- ---------------------------------------------------------------

theorem confirmLoop_atomic (m : Master) (ns : List Str) (rid : Str) :
    ∀ (rows : List Row) (msg : Str) (st : Nat),
      (confirmLoop m ns rid rows).1 = (false, msg, st) →
      (confirmLoop m ns rid rows).2 = rows := by
  intro rows
  induction rows with
  | nil => intro msg st _; rfl
  | cons r rest ih =>
    intro msg st h
    unfold confirmLoop at h ⊢
    by_cases hm : trim r.row_id = rid
    · rw [if_pos hm] at h ⊢
      by_cases he : trim r.sku ≠ [] ∧ _sku_type m ns (trim r.sku) ≠ NoScanT
      · rw [if_pos he] at h ⊢
      · rw [if_neg he] at h ⊢
        simp at h
    · rw [if_neg hm] at h ⊢
      dsimp only at h ⊢
      rw [ih msg st h]

/-- Claim C10: error atomicity — whenever assign_barcode, assign_product_id
or confirm_extra returns a failure, the persisted store is exactly the store
it was called with; the store write is reached only on each success path. -/
theorem c10_error_atomicity :
    (∀ (m : Master) (ns : List Str) (now : Nat) (rows : List Row) (bc : Str)
        (aw : Option Str) (msg : Str) (st : Nat),
      (assign_barcode m ns now rows bc aw).1 = .err msg st →
      (assign_barcode m ns now rows bc aw).2 = rows) ∧
    (∀ (rows : List Row) (awb pid msg : Str) (st : Nat),
      (assign_product_id rows awb pid).1 = (false, msg, st) →
      (assign_product_id rows awb pid).2 = rows) ∧
    (∀ (m : Master) (ns : List Str) (rows : List Row) (rid msg : Str) (st : Nat),
      (confirm_extra m ns rows rid).1 = (false, msg, st) →
      (confirm_extra m ns rows rid).2 = rows) := by
  refine ⟨?_, ?_, ?_⟩
  · intro m ns now rows bc aw msg st h
    rcases assign_barcode_cases m ns now rows bc aw with ⟨h1, _⟩ |
      ⟨_, _, _, _, _, _, _, _, ⟨p, hok⟩, _⟩
    · exact h1
    · exact absurd (h.symm.trans hok) (by simp)
  · intro rows awb pid msg st h
    unfold assign_product_id at h ⊢
    split_ifs at h ⊢ <;> first | rfl | simp at h
  · intro m ns rows rid msg st h
    unfold confirm_extra at h ⊢
    by_cases he : trim rid = []
    · rw [if_pos he] at h ⊢
    · rw [if_neg he] at h ⊢
      exact confirmLoop_atomic m ns (trim rid) rows msg st h

/-- Claim C10 witness: an invalid scan on the empty store fails with 400 and
leaves the store unchanged. -/
theorem c10_error_atomicity_witness :
    (assign_barcode [] [] 0 [] "???".data none).2 = [] :=
  c10_error_atomicity.1 [] [] 0 [] "???".data none invalidMsg 400 rfl

-- ---------------------------------------------------------------
-- claim C1: lock mismatch (spec-modelled: no Lock exists in src/)
-- ---------------------------------------------------------------

/-- Claim C1 (amended): while a Lock is held for group G with expected SKU S
and S is still pending, a scan that parses to any SKU different from S —
provided its token does not trip the earlier global-uniqueness step — is
rejected LockMismatch (409) naming S, and neither the store nor the Lock is
touched.  (The original claim covered every barcode for a SKU of G other
than S; the spec's own step order runs the DuplicateToken check before the
lock check, so a duplicate token is rejected as DuplicateToken instead, see
the counterexample.  Spec-modelled: src/ has no Lock.) -/
theorem c1_lock_mismatch (m : Master) (ns : List Str) (now : Nat)
    (rows : List Row) (lk : Lock) (bc : Str) (hint : Option Str)
    {sku4 pid : Str}
    (hp : _parse_barcode m ns now (upper bc) = .ok (sku4, pid))
    (hnd : ¬ ((_sku_type m ns sku4 = CompulsoryT ∨ _sku_type m ns sku4 = UnknownT) ∧
        _product_id_exists_anywhere pid rows = true))
    (hpend : lk.expected ∈ pendingSkus m ns rows lk.group)
    (hne : sku4 ≠ lk.expected) :
    allocate_locked m ns now (some lk) rows bc hint
      = (.err (lockMismatchMsg lk.expected) 409, rows, some lk) := by
  unfold allocate_locked
  rw [hp]
  dsimp only
  rw [if_neg hnd]
  have hpne : pendingSkus m ns rows lk.group ≠ [] := by
    intro hnil
    rw [hnil] at hpend
    simp at hpend
  rw [if_neg hpne]
  have hexp : expectedSku m ns rows lk = lk.expected := by
    unfold expectedSku
    rw [if_pos hpend]
  rw [hexp, if_neg hne]

/-- Claim C1 counterexample: lock held on (group 9, AT0001) with AT0001 still
pending; the scan BT0001-B1 parses to group 9's other SKU BT0001 ≠ AT0001,
but its token B0001 is already assigned elsewhere, so allocate returns
DuplicateToken, not LockMismatch naming AT0001. -/
theorem c1_counterexample :
    "AT0001".data ∈ pendingSkus c1m [] c1Rows "9".data ∧
    "BT0001".data ∈ pendingSkus c1m [] c1Rows "9".data ∧
    _normalize_sku_for_db ("BT0001".data) ≠ "AT0001".data ∧
    allocate_locked c1m [] 0 (some ⟨"9".data, "AT0001".data⟩) c1Rows
        "BT0001-B1".data none
      = (.err (dupMsg "B0001".data) 409, c1Rows, some ⟨"9".data, "AT0001".data⟩) ∧
    dupMsg "B0001".data ≠ lockMismatchMsg "AT0001".data := by
  refine ⟨by decide, by decide, by decide, by rfl, by decide⟩

/-- Claim C1 witness: same lock state, scanning BT0001-B2 (a fresh token for
the non-expected SKU BT0001) is rejected LockMismatch naming AT0001 with
store and lock untouched. -/
theorem c1_lock_mismatch_witness :
    allocate_locked c1m [] 0 (some ⟨"9".data, "AT0001".data⟩) c1Rows
        "BT0001-B2".data none
      = (.err (lockMismatchMsg "AT0001".data) 409, c1Rows,
         some ⟨"9".data, "AT0001".data⟩) :=
  c1_lock_mismatch c1m [] 0 c1Rows ⟨"9".data, "AT0001".data⟩ "BT0001-B2".data none
    (by rfl) (by decide) (by decide) (by decide)

end Atovio
